import Mathlib

/-!
Verification of the Tic-Tac-Toe AI core and game-state utilities.

The definitions below are a shallow embedding of the JavaScript sources:
  - `computeWinner` from src/tic_tac_toe_frontend/src/hooks/useTicTacToe.js
  - `chooseBestMove`, `quickHeuristic`, `minimaxDriver` (with its inner
    `availableMoves`, `terminalScore`, `minimax`) from the AI module
    (second part of src/tic_tac_toe_frontend/src/components/Scoreboard.js)
  - `makeMove` / `updateOutcome` from the hook
  - the audit ring buffer from src/tic_tac_toe_frontend/src/utils/audit.js

A board is a list of cells, each cell `none`, `some X` or `some O`; JS
`board[i]` (undefined out of range, falsy when null) is modelled by
`List.getD i none`.  JS numbers used as scores are modelled by `Int`
extended with the two infinities (`Score`), since the JS minimax seeds its
fold with `-Infinity` / `Infinity`.  The in-place mark/retract mutation of
the scratch board in `minimax` is modelled by explicit state passing: the
Lean `minimax` returns the search result together with the board as the
recursion leaves it, so that the restoration contract is a provable
statement rather than being true by construction.
-/

namespace TTT

/-- The two player marks, JS strings 'X' and 'O'. -/
inductive Player
  | X
  | O
deriving DecidableEq, Repr

open Player

/-- JS `aiPlayer === 'X' ? 'O' : 'X'`. -/
def Player.other : Player → Player
  | X => O
  | O => X

/-- A cell holds a mark or null. -/
abbrev Cell := Option Player

/-- A board is a flat list of cells; the code validates length 9. -/
abbrev Board := List Cell

/-- The eight winning lines, in the order listed in `computeWinner`. -/
def winLines : List (Nat × Nat × Nat) :=
  [(0, 1, 2), (3, 4, 5), (6, 7, 8),
   (0, 3, 6), (1, 4, 7), (2, 5, 8),
   (0, 4, 8), (2, 4, 6)]

/-- Helper for `computeWinner`: scan the lines in order and return the mark
of the first line whose three cells hold the same non-null mark. -/
def findWin (board : Board) : List (Nat × Nat × Nat) → Option Player
  | [] => none
  | (a, b, c) :: rest =>
    match board.getD a none with
    | some p =>
      if board.getD b none = some p ∧ board.getD c none = some p then some p
      else findWin board rest
    | none => findWin board rest

/-- `computeWinner` from useTicTacToe.js: first winning line's mark, else null. -/
def computeWinner (board : Board) : Option Player :=
  findWin board winLines

/-- `quickHeuristic` from the AI module: center, then corners [0,2,6,8],
then edges [1,3,5,7], else -1. -/
def quickHeuristic (board : Board) : Int :=
  if (board.getD 4 none).isNone then 4
  else
    match [0, 2, 6, 8].find? (fun i => (board.getD i none).isNone) with
    | some i => (i : Int)
    | none =>
      match [1, 3, 5, 7].find? (fun i => (board.getD i none).isNone) with
      | some i => (i : Int)
      | none => -1

/-- JS number used as a minimax score: an integer or one of the two
infinities used to seed the fold. -/
inductive Score
  | negInf
  | num (n : Int)
  | posInf
deriving DecidableEq, Repr

/-- The strict < of JS numbers restricted to the values that occur. -/
def Score.blt : Score → Score → Bool
  | Score.negInf, Score.negInf => false
  | Score.negInf, _ => true
  | Score.num _, Score.negInf => false
  | Score.num a, Score.num b => decide (a < b)
  | Score.num _, Score.posInf => true
  | Score.posInf, _ => false

/-- The record `{score, move}` returned by `minimax`. -/
structure SearchRes where
  score : Score
  move : Int
deriving DecidableEq, Repr

/-- `availableMoves` from `minimaxDriver`: indices 0..8 whose cell is null,
in ascending order. -/
def availableMoves (b : Board) : List Nat :=
  (List.range 9).filter (fun i => (b.getD i none).isNone)

/-- `terminalScore` from `minimaxDriver`; `cw` is the injected
`computeWinner`, `aiPlayer` the mark the AI controls. -/
def terminalScore (cw : Board → Option Player) (aiPlayer : Player)
    (b : Board) (depthLeft : Nat) : Option Int :=
  match cw b with
  | some w =>
    if w = aiPlayer then some (10 + (depthLeft : Int))
    else some (-10 - (depthLeft : Int))
  | none => if b.all Option.isSome then some 0 else none

/-- The body of the `for (const m of moves)` loop in `minimax`.  `recur`
is the recursive call at the next depth; the board is threaded through the
loop exactly as the JS mutates it: mark cell `m`, recurse on the mutated
board, null cell `m` on whatever board the recursion left behind. -/
def minimaxStep (recur : Player → Board → SearchRes × Board)
    (aiPlayer player : Player) :
    List Nat → Board → SearchRes → SearchRes × Board
  | [], b, best => (best, b)
  | m :: rest, b, best =>
    let b1 := b.set m (some player)
    let r := recur player.other b1
    let b3 := r.2.set m none
    let best' :=
      if player = aiPlayer then
        if Score.blt best.score r.1.score then ⟨r.1.score, (m : Int)⟩ else best
      else
        if Score.blt r.1.score best.score then ⟨r.1.score, (m : Int)⟩ else best
    minimaxStep recur aiPlayer player rest b3 best'

/-- `minimax` from `minimaxDriver`.  Recursion is on `depthLeft`, which the
JS decrements on every recursive call; the returned board is the state of
the scratch buffer when the call returns. -/
def minimax (cw : Board → Option Player) (aiPlayer : Player) :
    Nat → Player → Board → SearchRes × Board
  | 0, _player, b =>
    match terminalScore cw aiPlayer b 0 with
    | some t => (⟨Score.num t, -1⟩, b)
    | none => (⟨Score.num 0, -1⟩, b)
  | d + 1, player, b =>
    match terminalScore cw aiPlayer b (d + 1) with
    | some t => (⟨Score.num t, -1⟩, b)
    | none =>
      minimaxStep (minimax cw aiPlayer d) aiPlayer player (availableMoves b) b
        ⟨if player = aiPlayer then Score.negInf else Score.posInf, -1⟩

/-- JS `Math.max(1, Math.min(9, maxDepth || 9))`: 0 is falsy, so it (like
an unset depth) falls back to 9 before clamping. -/
def clampDepth (maxDepth : Int) : Int :=
  max 1 (min 9 (if maxDepth = 0 then 9 else maxDepth))

/-- `minimaxDriver`: run `minimax` on a copy of the board at the clamped
depth with the AI to move, and return the move index. -/
def minimaxDriver (board : Board) (aiPlayer : Player) (maxDepth : Int)
    (cw : Board → Option Player) : Int :=
  (minimax cw aiPlayer (clampDepth maxDepth).toNat aiPlayer board).1.move

/-- The `opts` record of `chooseBestMove`: strategy string, optional depth
(defaulted to 9 by the destructuring), injected winner classifier. -/
structure Opts where
  strategy : String
  depth : Option Int
  computeWinner : Board → Option Player

/-- `chooseBestMove` from the AI module. -/
def chooseBestMove (board : Board) (aiPlayer : Player) (opts : Opts) : Int :=
  if board.length ≠ 9 then -1
  else if opts.strategy = "quick" then quickHeuristic board
  else minimaxDriver board aiPlayer (opts.depth.getD 9) opts.computeWinner

/-- The empty board. -/
def emptyBoard : Board := List.replicate 9 none

/-- The running score totals of the hook, JS object {X, O, ties}. -/
structure Scores where
  X : Nat
  O : Nat
  ties : Nat
deriving DecidableEq, Repr

/-- JS `{ ...prev, [w]: prev[w] + 1 }` in `updateOutcome`. -/
def Scores.addWin (s : Scores) : Player → Scores
  | Player.X => { s with X := s.X + 1 }
  | Player.O => { s with O := s.O + 1 }

/-- The state managed by useTicTacToe: board, player to move, winner flag,
draw flag, score totals. -/
structure GameState where
  board : Board
  currentPlayer : Player
  winner : Option Player
  isDraw : Bool
  scores : Scores
deriving DecidableEq, Repr

/-- `updateOutcome` from the hook, as a function of the new board and the
previous scores: returns the new (winner, isDraw, scores). -/
def updateOutcome (nextBoard : Board) (s : Scores) :
    Option Player × Bool × Scores :=
  match computeWinner nextBoard with
  | some w => (some w, false, s.addWin w)
  | none =>
    if nextBoard.all Option.isSome then (none, true, { s with ties := s.ties + 1 })
    else (none, false, s)

/-- `makeMove` from the hook: reject when the game is over, the index is
out of [0,8], or the cell is occupied; otherwise place the mark, recompute
the outcome and switch the turn unless the game just ended.  The JS index
is a number; it is modelled as an integer. -/
def makeMove (st : GameState) (index : Int) : Bool × GameState :=
  if st.winner.isSome ∨ st.isDraw then (false, st)
  else if index < 0 ∨ index > 8 then (false, st)
  else if (st.board.getD index.toNat none).isSome then (false, st)
  else
    let nextBoard := st.board.set index.toNat (some st.currentPlayer)
    let o := updateOutcome nextBoard st.scores
    let nextPlayer :=
      if o.1.isNone ∧ o.2.1 = false then st.currentPlayer.other
      else st.currentPlayer
    (true,
      { board := nextBoard, currentPlayer := nextPlayer, winner := o.1,
        isDraw := o.2.1, scores := o.2.2 })

/-- MAX_LOGS from audit.js. -/
def MAX_LOGS : Nat := 100

/-- JS `arr.slice(-n)`: the last `n` entries (all of them when the list is
shorter). -/
def sliceLast (n : Nat) {α : Type _} (l : List α) : List α :=
  l.drop (l.length - n)

/-- The initialization of `buffer` in audit.js: a restored array is cut to
the last MAX_LOGS entries.  Audit entries are modelled abstractly. -/
def initBuffer {α : Type _} (arr : List α) : List α :=
  sliceLast MAX_LOGS arr

/-- `logEvent` from audit.js acting on the buffer: push the payload, then
cut to the last MAX_LOGS entries when over the limit. -/
def logEvent {α : Type _} (buffer : List α) (payload : α) : List α :=
  let b := buffer ++ [payload]
  if b.length > MAX_LOGS then sliceLast MAX_LOGS b else b

/-- `getAuditLog` from audit.js: a shallow copy of the buffer. -/
def getAuditLog {α : Type _} (buffer : List α) : List α :=
  buffer

/-- Maximum of two scores, as computed by the strict-update rule of the
maximizing branch of the minimax fold. -/
def Score.maxB (a x : Score) : Score :=
  if Score.blt a x then x else a

/-- Minimum of two scores, as computed by the strict-update rule of the
minimizing branch of the minimax fold. -/
def Score.minB (a x : Score) : Score :=
  if Score.blt x a then x else a

/-- A score is nonnegative when it is a nonnegative integer or plus
infinity. -/
def Score.isNonNeg : Score → Bool
  | Score.negInf => false
  | Score.num n => decide (0 ≤ n)
  | Score.posInf => true

/-- The score that the minimax loop body sees for candidate move `m`:
the recursive result on the board with the mover's mark placed at `m`. -/
def childScore (recur : Player → Board → SearchRes × Board) (player : Player)
    (b : Board) (m : Nat) : Score :=
  (recur player.other (b.set m (some player))).1.score

/-- Game-theoretic safety: with `fuel` at least the number of empty
cells, `noLose ai fuel b p` says that the side `ai` can guarantee, with
`p` to move, that the game never ends in a win for the opponent.  This is
the formal meaning of "the AI side wins or draws" quantified over all
opponent play; it is a specification device, not code from the repo. -/
def noLose (aiPlayer : Player) : Nat → Board → Player → Bool
  | fuel, b, p =>
    match computeWinner b with
    | some w => decide (w = aiPlayer)
    | none =>
      if b.all Option.isSome then true
      else
        match fuel with
        | 0 => false
        | f + 1 =>
          if p = aiPlayer then
            (availableMoves b).any (fun m => noLose aiPlayer f (b.set m (some p)) p.other)
          else
            (availableMoves b).all (fun m => noLose aiPlayer f (b.set m (some p)) p.other)

/-- A strategy certificate for the no-loss base case: at a position
where the certified side is to move it records the move to play, at an
opponent position it records one subtree per legal reply, and it stops at
positions that are already terminal.  Proof machinery, not code from the
repo. -/
inductive Cert
  | stop
  | ai (m : Nat) (next : Cert)
  | opp (cs : List (Nat × Cert))

/-- One step of certificate checking: `recur` is the check at the next
depth.  At a certified-side position the recorded move must be a legal
move of that side and its subtree must pass; at an opponent position
every legal reply must have a passing subtree. -/
def checkCertStep (recur : Board → Player → Cert → Bool) (aiPlayer : Player)
    (b : Board) (p : Player) : Cert → Bool
  | Cert.stop => false
  | Cert.ai m next =>
    decide (p = aiPlayer) && decide (m < 9) && (b.getD m none).isNone
      && recur (b.set m (some p)) p.other next
  | Cert.opp cs =>
    !(decide (p = aiPlayer))
      && (availableMoves b).all (fun m =>
           match cs.lookup m with
           | some next => recur (b.set m (some p)) p.other next
           | none => false)

/-- Check a strategy certificate by replaying it: a position that is
already won by the certified side or drawn passes, a position won by the
opponent fails, and other positions are delegated to `checkCertStep` at
one less fuel. -/
def checkCert (aiPlayer : Player) : Nat → Board → Player → Cert → Bool
  | 0, b, _p, _c =>
    match computeWinner b with
    | some w => decide (w = aiPlayer)
    | none => if b.all Option.isSome then true else false
  | f + 1, b, p, c =>
    match computeWinner b with
    | some w => decide (w = aiPlayer)
    | none =>
      if b.all Option.isSome then true
      else checkCertStep (checkCert aiPlayer f) aiPlayer b p c

/-- A certificate that X, moving first, never loses (generated from a
win/block/fork-defusing rule set and verified by `checkCert`). -/
def certX : Cert :=
Cert.ai 4 (Cert.opp [(0, Cert.ai 2 (Cert.opp [(1, Cert.ai 6 (Cert.stop)), (3, Cert.ai 6 (Cert.stop)), (5,
  Cert.ai 6 (Cert.stop)), (6, Cert.ai 3 (Cert.opp [(1, Cert.ai 5 (Cert.stop)), (5, Cert.ai 8 (Cert.opp [(1,
  Cert.ai 7 (Cert.stop)), (7, Cert.ai 1 (Cert.stop))])), (7, Cert.ai 5 (Cert.stop)), (8, Cert.ai 5
  (Cert.stop))])), (7, Cert.ai 6 (Cert.stop)), (8, Cert.ai 6 (Cert.stop))])), (1, Cert.ai 0 (Cert.opp [(2,
  Cert.ai 8 (Cert.stop)), (3, Cert.ai 8 (Cert.stop)), (5, Cert.ai 8 (Cert.stop)), (6, Cert.ai 8 (Cert.stop)),
  (7, Cert.ai 8 (Cert.stop)), (8, Cert.ai 2 (Cert.opp [(3, Cert.ai 6 (Cert.stop)), (5, Cert.ai 6 (Cert.stop)),
  (6, Cert.ai 7 (Cert.opp [(3, Cert.ai 5 (Cert.stop)), (5, Cert.ai 3 (Cert.stop))])), (7, Cert.ai 6
  (Cert.stop))]))])), (2, Cert.ai 0 (Cert.opp [(1, Cert.ai 8 (Cert.stop)), (3, Cert.ai 8 (Cert.stop)), (5,
  Cert.ai 8 (Cert.stop)), (6, Cert.ai 8 (Cert.stop)), (7, Cert.ai 8 (Cert.stop)), (8, Cert.ai 5 (Cert.opp [(1,
  Cert.ai 3 (Cert.stop)), (3, Cert.ai 6 (Cert.opp [(1, Cert.ai 7 (Cert.stop)), (7, Cert.ai 1 (Cert.stop))])),
  (6, Cert.ai 3 (Cert.stop)), (7, Cert.ai 3 (Cert.stop))]))])), (3, Cert.ai 0 (Cert.opp [(1, Cert.ai 8
  (Cert.stop)), (2, Cert.ai 8 (Cert.stop)), (5, Cert.ai 8 (Cert.stop)), (6, Cert.ai 8 (Cert.stop)), (7,
  Cert.ai 8 (Cert.stop)), (8, Cert.ai 2 (Cert.opp [(1, Cert.ai 6 (Cert.stop)), (5, Cert.ai 1 (Cert.stop)), (6,
  Cert.ai 1 (Cert.stop)), (7, Cert.ai 1 (Cert.stop))]))])), (5, Cert.ai 0 (Cert.opp [(1, Cert.ai 8
  (Cert.stop)), (2, Cert.ai 8 (Cert.stop)), (3, Cert.ai 8 (Cert.stop)), (6, Cert.ai 8 (Cert.stop)), (7,
  Cert.ai 8 (Cert.stop)), (8, Cert.ai 2 (Cert.opp [(1, Cert.ai 6 (Cert.stop)), (3, Cert.ai 1 (Cert.stop)), (6,
  Cert.ai 1 (Cert.stop)), (7, Cert.ai 1 (Cert.stop))]))])), (6, Cert.ai 0 (Cert.opp [(1, Cert.ai 8
  (Cert.stop)), (2, Cert.ai 8 (Cert.stop)), (3, Cert.ai 8 (Cert.stop)), (5, Cert.ai 8 (Cert.stop)), (7,
  Cert.ai 8 (Cert.stop)), (8, Cert.ai 7 (Cert.opp [(1, Cert.ai 2 (Cert.opp [(3, Cert.ai 5 (Cert.stop)), (5,
  Cert.ai 3 (Cert.stop))])), (2, Cert.ai 1 (Cert.stop)), (3, Cert.ai 1 (Cert.stop)), (5, Cert.ai 1
  (Cert.stop))]))])), (7, Cert.ai 0 (Cert.opp [(1, Cert.ai 8 (Cert.stop)), (2, Cert.ai 8 (Cert.stop)), (3,
  Cert.ai 8 (Cert.stop)), (5, Cert.ai 8 (Cert.stop)), (6, Cert.ai 8 (Cert.stop)), (8, Cert.ai 6 (Cert.opp [(1,
  Cert.ai 2 (Cert.stop)), (2, Cert.ai 3 (Cert.stop)), (3, Cert.ai 2 (Cert.stop)), (5, Cert.ai 2
  (Cert.stop))]))])), (8, Cert.ai 0 (Cert.opp [(1, Cert.ai 2 (Cert.opp [(3, Cert.ai 6 (Cert.stop)), (5,
  Cert.ai 6 (Cert.stop)), (6, Cert.ai 7 (Cert.opp [(3, Cert.ai 5 (Cert.stop)), (5, Cert.ai 3 (Cert.stop))])),
  (7, Cert.ai 6 (Cert.stop))])), (2, Cert.ai 5 (Cert.opp [(1, Cert.ai 3 (Cert.stop)), (3, Cert.ai 6 (Cert.opp
  [(1, Cert.ai 7 (Cert.stop)), (7, Cert.ai 1 (Cert.stop))])), (6, Cert.ai 3 (Cert.stop)), (7, Cert.ai 3
  (Cert.stop))])), (3, Cert.ai 2 (Cert.opp [(1, Cert.ai 6 (Cert.stop)), (5, Cert.ai 1 (Cert.stop)), (6,
  Cert.ai 1 (Cert.stop)), (7, Cert.ai 1 (Cert.stop))])), (5, Cert.ai 2 (Cert.opp [(1, Cert.ai 6 (Cert.stop)),
  (3, Cert.ai 1 (Cert.stop)), (6, Cert.ai 1 (Cert.stop)), (7, Cert.ai 1 (Cert.stop))])), (6, Cert.ai 7
  (Cert.opp [(1, Cert.ai 2 (Cert.opp [(3, Cert.ai 5 (Cert.stop)), (5, Cert.ai 3 (Cert.stop))])), (2, Cert.ai 1
  (Cert.stop)), (3, Cert.ai 1 (Cert.stop)), (5, Cert.ai 1 (Cert.stop))])), (7, Cert.ai 6 (Cert.opp [(1,
  Cert.ai 2 (Cert.stop)), (2, Cert.ai 3 (Cert.stop)), (3, Cert.ai 2 (Cert.stop)), (5, Cert.ai 2
  (Cert.stop))]))]))])

/-- A certificate that O, moving second, never loses (generated from a
win/block/fork-defusing rule set and verified by `checkCert`). -/
def certO : Cert :=
Cert.opp [(0, Cert.ai 4 (Cert.opp [(1, Cert.ai 2 (Cert.opp [(3, Cert.ai 6 (Cert.stop)), (5, Cert.ai 6
  (Cert.stop)), (6, Cert.ai 3 (Cert.opp [(5, Cert.ai 8 (Cert.opp [(7, Cert.stop)])), (7, Cert.ai 5
  (Cert.stop)), (8, Cert.ai 5 (Cert.stop))])), (7, Cert.ai 6 (Cert.stop)), (8, Cert.ai 6 (Cert.stop))])), (2,
  Cert.ai 1 (Cert.opp [(3, Cert.ai 7 (Cert.stop)), (5, Cert.ai 7 (Cert.stop)), (6, Cert.ai 7 (Cert.stop)), (7,
  Cert.ai 3 (Cert.opp [(5, Cert.ai 8 (Cert.opp [(6, Cert.stop)])), (6, Cert.ai 5 (Cert.stop)), (8, Cert.ai 5
  (Cert.stop))])), (8, Cert.ai 7 (Cert.stop))])), (3, Cert.ai 6 (Cert.opp [(1, Cert.ai 2 (Cert.stop)), (2,
  Cert.ai 1 (Cert.opp [(5, Cert.ai 7 (Cert.stop)), (7, Cert.ai 8 (Cert.opp [(5, Cert.stop)])), (8, Cert.ai 7
  (Cert.stop))])), (5, Cert.ai 2 (Cert.stop)), (7, Cert.ai 2 (Cert.stop)), (8, Cert.ai 2 (Cert.stop))])), (5,
  Cert.ai 1 (Cert.opp [(2, Cert.ai 7 (Cert.stop)), (3, Cert.ai 7 (Cert.stop)), (6, Cert.ai 7 (Cert.stop)), (7,
  Cert.ai 6 (Cert.opp [(2, Cert.ai 8 (Cert.opp [(3, Cert.stop)])), (3, Cert.ai 2 (Cert.stop)), (8, Cert.ai 2
  (Cert.stop))])), (8, Cert.ai 7 (Cert.stop))])), (6, Cert.ai 3 (Cert.opp [(1, Cert.ai 5 (Cert.stop)), (2,
  Cert.ai 5 (Cert.stop)), (5, Cert.ai 1 (Cert.opp [(2, Cert.ai 7 (Cert.stop)), (7, Cert.ai 8 (Cert.opp [(2,
  Cert.stop)])), (8, Cert.ai 7 (Cert.stop))])), (7, Cert.ai 5 (Cert.stop)), (8, Cert.ai 5 (Cert.stop))])), (7,
  Cert.ai 3 (Cert.opp [(1, Cert.ai 5 (Cert.stop)), (2, Cert.ai 5 (Cert.stop)), (5, Cert.ai 2 (Cert.opp [(1,
  Cert.ai 6 (Cert.stop)), (6, Cert.ai 8 (Cert.opp [(1, Cert.stop)])), (8, Cert.ai 6 (Cert.stop))])), (6,
  Cert.ai 5 (Cert.stop)), (8, Cert.ai 5 (Cert.stop))])), (8, Cert.ai 1 (Cert.opp [(2, Cert.ai 7 (Cert.stop)),
  (3, Cert.ai 7 (Cert.stop)), (5, Cert.ai 7 (Cert.stop)), (6, Cert.ai 7 (Cert.stop)), (7, Cert.ai 6 (Cert.opp
  [(2, Cert.ai 5 (Cert.opp [(3, Cert.stop)])), (3, Cert.ai 2 (Cert.stop)), (5, Cert.ai 2
  (Cert.stop))]))]))])), (1, Cert.ai 4 (Cert.opp [(0, Cert.ai 2 (Cert.opp [(3, Cert.ai 6 (Cert.stop)), (5,
  Cert.ai 6 (Cert.stop)), (6, Cert.ai 3 (Cert.opp [(5, Cert.ai 8 (Cert.opp [(7, Cert.stop)])), (7, Cert.ai 5
  (Cert.stop)), (8, Cert.ai 5 (Cert.stop))])), (7, Cert.ai 6 (Cert.stop)), (8, Cert.ai 6 (Cert.stop))])), (2,
  Cert.ai 0 (Cert.opp [(3, Cert.ai 8 (Cert.stop)), (5, Cert.ai 8 (Cert.stop)), (6, Cert.ai 8 (Cert.stop)), (7,
  Cert.ai 8 (Cert.stop)), (8, Cert.ai 5 (Cert.opp [(3, Cert.ai 6 (Cert.opp [(7, Cert.stop)])), (6, Cert.ai 3
  (Cert.stop)), (7, Cert.ai 3 (Cert.stop))]))])), (3, Cert.ai 0 (Cert.opp [(2, Cert.ai 8 (Cert.stop)), (5,
  Cert.ai 8 (Cert.stop)), (6, Cert.ai 8 (Cert.stop)), (7, Cert.ai 8 (Cert.stop)), (8, Cert.ai 2 (Cert.opp [(5,
  Cert.ai 6 (Cert.stop)), (6, Cert.ai 7 (Cert.opp [(5, Cert.stop)])), (7, Cert.ai 6 (Cert.stop))]))])), (5,
  Cert.ai 0 (Cert.opp [(2, Cert.ai 8 (Cert.stop)), (3, Cert.ai 8 (Cert.stop)), (6, Cert.ai 8 (Cert.stop)), (7,
  Cert.ai 8 (Cert.stop)), (8, Cert.ai 2 (Cert.opp [(3, Cert.ai 6 (Cert.stop)), (6, Cert.ai 7 (Cert.opp [(3,
  Cert.stop)])), (7, Cert.ai 6 (Cert.stop))]))])), (6, Cert.ai 0 (Cert.opp [(2, Cert.ai 8 (Cert.stop)), (3,
  Cert.ai 8 (Cert.stop)), (5, Cert.ai 8 (Cert.stop)), (7, Cert.ai 8 (Cert.stop)), (8, Cert.ai 7 (Cert.opp [(2,
  Cert.ai 5 (Cert.opp [(3, Cert.stop)])), (3, Cert.ai 2 (Cert.opp [(5, Cert.stop)])), (5, Cert.ai 2 (Cert.opp
  [(3, Cert.stop)]))]))])), (7, Cert.ai 0 (Cert.opp [(2, Cert.ai 8 (Cert.stop)), (3, Cert.ai 8 (Cert.stop)),
  (5, Cert.ai 8 (Cert.stop)), (6, Cert.ai 8 (Cert.stop)), (8, Cert.ai 6 (Cert.opp [(2, Cert.ai 3 (Cert.stop)),
  (3, Cert.ai 2 (Cert.stop)), (5, Cert.ai 2 (Cert.stop))]))])), (8, Cert.ai 2 (Cert.opp [(0, Cert.ai 6
  (Cert.stop)), (3, Cert.ai 6 (Cert.stop)), (5, Cert.ai 6 (Cert.stop)), (6, Cert.ai 7 (Cert.opp [(0, Cert.ai 3
  (Cert.opp [(5, Cert.stop)])), (3, Cert.ai 0 (Cert.opp [(5, Cert.stop)])), (5, Cert.ai 0 (Cert.opp [(3,
  Cert.stop)]))])), (7, Cert.ai 6 (Cert.stop))]))])), (2, Cert.ai 4 (Cert.opp [(0, Cert.ai 1 (Cert.opp [(3,
  Cert.ai 7 (Cert.stop)), (5, Cert.ai 7 (Cert.stop)), (6, Cert.ai 7 (Cert.stop)), (7, Cert.ai 3 (Cert.opp [(5,
  Cert.ai 8 (Cert.opp [(6, Cert.stop)])), (6, Cert.ai 5 (Cert.stop)), (8, Cert.ai 5 (Cert.stop))])), (8,
  Cert.ai 7 (Cert.stop))])), (1, Cert.ai 0 (Cert.opp [(3, Cert.ai 8 (Cert.stop)), (5, Cert.ai 8 (Cert.stop)),
  (6, Cert.ai 8 (Cert.stop)), (7, Cert.ai 8 (Cert.stop)), (8, Cert.ai 5 (Cert.opp [(3, Cert.ai 6 (Cert.opp
  [(7, Cert.stop)])), (6, Cert.ai 3 (Cert.stop)), (7, Cert.ai 3 (Cert.stop))]))])), (3, Cert.ai 0 (Cert.opp
  [(1, Cert.ai 8 (Cert.stop)), (5, Cert.ai 8 (Cert.stop)), (6, Cert.ai 8 (Cert.stop)), (7, Cert.ai 8
  (Cert.stop)), (8, Cert.ai 5 (Cert.opp [(1, Cert.ai 6 (Cert.opp [(7, Cert.stop)])), (6, Cert.ai 7 (Cert.opp
  [(1, Cert.stop)])), (7, Cert.ai 6 (Cert.opp [(1, Cert.stop)]))]))])), (5, Cert.ai 8 (Cert.opp [(0, Cert.ai 1
  (Cert.opp [(3, Cert.ai 7 (Cert.stop)), (6, Cert.ai 7 (Cert.stop)), (7, Cert.ai 6 (Cert.opp [(3,
  Cert.stop)]))])), (1, Cert.ai 0 (Cert.stop)), (3, Cert.ai 0 (Cert.stop)), (6, Cert.ai 0 (Cert.stop)), (7,
  Cert.ai 0 (Cert.stop))])), (6, Cert.ai 1 (Cert.opp [(0, Cert.ai 7 (Cert.stop)), (3, Cert.ai 7 (Cert.stop)),
  (5, Cert.ai 7 (Cert.stop)), (7, Cert.ai 8 (Cert.opp [(0, Cert.ai 3 (Cert.opp [(5, Cert.stop)])), (3, Cert.ai
  0 (Cert.stop)), (5, Cert.ai 0 (Cert.stop))])), (8, Cert.ai 7 (Cert.stop))])), (7, Cert.ai 3 (Cert.opp [(0,
  Cert.ai 5 (Cert.stop)), (1, Cert.ai 5 (Cert.stop)), (5, Cert.ai 8 (Cert.opp [(0, Cert.ai 1 (Cert.opp [(6,
  Cert.stop)])), (1, Cert.ai 0 (Cert.stop)), (6, Cert.ai 0 (Cert.stop))])), (6, Cert.ai 5 (Cert.stop)), (8,
  Cert.ai 5 (Cert.stop))])), (8, Cert.ai 5 (Cert.opp [(0, Cert.ai 3 (Cert.stop)), (1, Cert.ai 3 (Cert.stop)),
  (3, Cert.ai 1 (Cert.opp [(0, Cert.ai 7 (Cert.stop)), (6, Cert.ai 7 (Cert.stop)), (7, Cert.ai 6 (Cert.opp
  [(0, Cert.stop)]))])), (6, Cert.ai 3 (Cert.stop)), (7, Cert.ai 3 (Cert.stop))]))])), (3, Cert.ai 4 (Cert.opp
  [(0, Cert.ai 6 (Cert.opp [(1, Cert.ai 2 (Cert.stop)), (2, Cert.ai 1 (Cert.opp [(5, Cert.ai 7 (Cert.stop)),
  (7, Cert.ai 8 (Cert.opp [(5, Cert.stop)])), (8, Cert.ai 7 (Cert.stop))])), (5, Cert.ai 2 (Cert.stop)), (7,
  Cert.ai 2 (Cert.stop)), (8, Cert.ai 2 (Cert.stop))])), (1, Cert.ai 0 (Cert.opp [(2, Cert.ai 8 (Cert.stop)),
  (5, Cert.ai 8 (Cert.stop)), (6, Cert.ai 8 (Cert.stop)), (7, Cert.ai 8 (Cert.stop)), (8, Cert.ai 2 (Cert.opp
  [(5, Cert.ai 6 (Cert.stop)), (6, Cert.ai 7 (Cert.opp [(5, Cert.stop)])), (7, Cert.ai 6 (Cert.stop))]))])),
  (2, Cert.ai 0 (Cert.opp [(1, Cert.ai 8 (Cert.stop)), (5, Cert.ai 8 (Cert.stop)), (6, Cert.ai 8 (Cert.stop)),
  (7, Cert.ai 8 (Cert.stop)), (8, Cert.ai 5 (Cert.opp [(1, Cert.ai 6 (Cert.opp [(7, Cert.stop)])), (6, Cert.ai
  7 (Cert.opp [(1, Cert.stop)])), (7, Cert.ai 6 (Cert.opp [(1, Cert.stop)]))]))])), (5, Cert.ai 0 (Cert.opp
  [(1, Cert.ai 8 (Cert.stop)), (2, Cert.ai 8 (Cert.stop)), (6, Cert.ai 8 (Cert.stop)), (7, Cert.ai 8
  (Cert.stop)), (8, Cert.ai 2 (Cert.opp [(1, Cert.ai 6 (Cert.stop)), (6, Cert.ai 1 (Cert.stop)), (7, Cert.ai 1
  (Cert.stop))]))])), (6, Cert.ai 0 (Cert.opp [(1, Cert.ai 8 (Cert.stop)), (2, Cert.ai 8 (Cert.stop)), (5,
  Cert.ai 8 (Cert.stop)), (7, Cert.ai 8 (Cert.stop)), (8, Cert.ai 7 (Cert.opp [(1, Cert.ai 2 (Cert.opp [(5,
  Cert.stop)])), (2, Cert.ai 1 (Cert.stop)), (5, Cert.ai 1 (Cert.stop))]))])), (7, Cert.ai 0 (Cert.opp [(1,
  Cert.ai 8 (Cert.stop)), (2, Cert.ai 8 (Cert.stop)), (5, Cert.ai 8 (Cert.stop)), (6, Cert.ai 8 (Cert.stop)),
  (8, Cert.ai 6 (Cert.opp [(1, Cert.ai 2 (Cert.stop)), (2, Cert.ai 5 (Cert.opp [(1, Cert.stop)])), (5, Cert.ai
  2 (Cert.stop))]))])), (8, Cert.ai 1 (Cert.opp [(0, Cert.ai 7 (Cert.stop)), (2, Cert.ai 7 (Cert.stop)), (5,
  Cert.ai 7 (Cert.stop)), (6, Cert.ai 7 (Cert.stop)), (7, Cert.ai 6 (Cert.opp [(0, Cert.ai 2 (Cert.stop)), (2,
  Cert.ai 5 (Cert.opp [(0, Cert.stop)])), (5, Cert.ai 2 (Cert.stop))]))]))])), (4, Cert.ai 0 (Cert.opp [(1,
  Cert.ai 7 (Cert.opp [(2, Cert.ai 6 (Cert.opp [(3, Cert.ai 8 (Cert.stop)), (5, Cert.ai 3 (Cert.stop)), (8,
  Cert.ai 3 (Cert.stop))])), (3, Cert.ai 5 (Cert.opp [(2, Cert.ai 6 (Cert.opp [(8, Cert.stop)])), (6, Cert.ai
  2 (Cert.opp [(8, Cert.stop)])), (8, Cert.ai 2 (Cert.opp [(6, Cert.stop)]))])), (5, Cert.ai 3 (Cert.opp [(2,
  Cert.ai 6 (Cert.stop)), (6, Cert.ai 2 (Cert.opp [(8, Cert.stop)])), (8, Cert.ai 6 (Cert.stop))])), (6,
  Cert.ai 2 (Cert.opp [(3, Cert.ai 5 (Cert.opp [(8, Cert.stop)])), (5, Cert.ai 3 (Cert.opp [(8, Cert.stop)])),
  (8, Cert.ai 3 (Cert.opp [(5, Cert.stop)]))])), (8, Cert.ai 3 (Cert.opp [(2, Cert.ai 6 (Cert.stop)), (5,
  Cert.ai 6 (Cert.stop)), (6, Cert.ai 2 (Cert.opp [(5, Cert.stop)]))]))])), (2, Cert.ai 6 (Cert.opp [(1,
  Cert.ai 3 (Cert.stop)), (3, Cert.ai 5 (Cert.opp [(1, Cert.ai 7 (Cert.opp [(8, Cert.stop)])), (7, Cert.ai 1
  (Cert.opp [(8, Cert.stop)])), (8, Cert.ai 1 (Cert.opp [(7, Cert.stop)]))])), (5, Cert.ai 3 (Cert.stop)), (7,
  Cert.ai 3 (Cert.stop)), (8, Cert.ai 3 (Cert.stop))])), (3, Cert.ai 5 (Cert.opp [(1, Cert.ai 7 (Cert.opp [(2,
  Cert.ai 6 (Cert.opp [(8, Cert.stop)])), (6, Cert.ai 2 (Cert.opp [(8, Cert.stop)])), (8, Cert.ai 2 (Cert.opp
  [(6, Cert.stop)]))])), (2, Cert.ai 6 (Cert.opp [(1, Cert.ai 7 (Cert.opp [(8, Cert.stop)])), (7, Cert.ai 1
  (Cert.opp [(8, Cert.stop)])), (8, Cert.ai 1 (Cert.opp [(7, Cert.stop)]))])), (6, Cert.ai 2 (Cert.opp [(1,
  Cert.ai 8 (Cert.stop)), (7, Cert.ai 1 (Cert.stop)), (8, Cert.ai 1 (Cert.stop))])), (7, Cert.ai 1 (Cert.opp
  [(2, Cert.ai 6 (Cert.opp [(8, Cert.stop)])), (6, Cert.ai 2 (Cert.stop)), (8, Cert.ai 2 (Cert.stop))])), (8,
  Cert.ai 1 (Cert.opp [(2, Cert.ai 6 (Cert.opp [(7, Cert.stop)])), (6, Cert.ai 2 (Cert.stop)), (7, Cert.ai 2
  (Cert.stop))]))])), (5, Cert.ai 3 (Cert.opp [(1, Cert.ai 6 (Cert.stop)), (2, Cert.ai 6 (Cert.stop)), (6,
  Cert.ai 2 (Cert.opp [(1, Cert.ai 7 (Cert.opp [(8, Cert.stop)])), (7, Cert.ai 1 (Cert.stop)), (8, Cert.ai 1
  (Cert.stop))])), (7, Cert.ai 6 (Cert.stop)), (8, Cert.ai 6 (Cert.stop))])), (6, Cert.ai 2 (Cert.opp [(1,
  Cert.ai 7 (Cert.opp [(3, Cert.ai 5 (Cert.opp [(8, Cert.stop)])), (5, Cert.ai 3 (Cert.opp [(8, Cert.stop)])),
  (8, Cert.ai 3 (Cert.opp [(5, Cert.stop)]))])), (3, Cert.ai 1 (Cert.stop)), (5, Cert.ai 1 (Cert.stop)), (7,
  Cert.ai 1 (Cert.stop)), (8, Cert.ai 1 (Cert.stop))])), (7, Cert.ai 1 (Cert.opp [(2, Cert.ai 6 (Cert.opp [(3,
  Cert.ai 5 (Cert.opp [(8, Cert.stop)])), (5, Cert.ai 3 (Cert.stop)), (8, Cert.ai 3 (Cert.stop))])), (3,
  Cert.ai 2 (Cert.stop)), (5, Cert.ai 2 (Cert.stop)), (6, Cert.ai 2 (Cert.stop)), (8, Cert.ai 2
  (Cert.stop))])), (8, Cert.ai 2 (Cert.opp [(1, Cert.ai 7 (Cert.opp [(3, Cert.ai 5 (Cert.opp [(6,
  Cert.stop)])), (5, Cert.ai 3 (Cert.opp [(6, Cert.stop)])), (6, Cert.ai 3 (Cert.opp [(5, Cert.stop)]))])),
  (3, Cert.ai 1 (Cert.stop)), (5, Cert.ai 1 (Cert.stop)), (6, Cert.ai 1 (Cert.stop)), (7, Cert.ai 1
  (Cert.stop))]))])), (5, Cert.ai 4 (Cert.opp [(0, Cert.ai 1 (Cert.opp [(2, Cert.ai 7 (Cert.stop)), (3,
  Cert.ai 7 (Cert.stop)), (6, Cert.ai 7 (Cert.stop)), (7, Cert.ai 6 (Cert.opp [(2, Cert.ai 8 (Cert.opp [(3,
  Cert.stop)])), (3, Cert.ai 2 (Cert.stop)), (8, Cert.ai 2 (Cert.stop))])), (8, Cert.ai 7 (Cert.stop))])), (1,
  Cert.ai 0 (Cert.opp [(2, Cert.ai 8 (Cert.stop)), (3, Cert.ai 8 (Cert.stop)), (6, Cert.ai 8 (Cert.stop)), (7,
  Cert.ai 8 (Cert.stop)), (8, Cert.ai 2 (Cert.opp [(3, Cert.ai 6 (Cert.stop)), (6, Cert.ai 7 (Cert.opp [(3,
  Cert.stop)])), (7, Cert.ai 6 (Cert.stop))]))])), (2, Cert.ai 8 (Cert.opp [(0, Cert.ai 1 (Cert.opp [(3,
  Cert.ai 7 (Cert.stop)), (6, Cert.ai 7 (Cert.stop)), (7, Cert.ai 6 (Cert.opp [(3, Cert.stop)]))])), (1,
  Cert.ai 0 (Cert.stop)), (3, Cert.ai 0 (Cert.stop)), (6, Cert.ai 0 (Cert.stop)), (7, Cert.ai 0
  (Cert.stop))])), (3, Cert.ai 0 (Cert.opp [(1, Cert.ai 8 (Cert.stop)), (2, Cert.ai 8 (Cert.stop)), (6,
  Cert.ai 8 (Cert.stop)), (7, Cert.ai 8 (Cert.stop)), (8, Cert.ai 2 (Cert.opp [(1, Cert.ai 6 (Cert.stop)), (6,
  Cert.ai 1 (Cert.stop)), (7, Cert.ai 1 (Cert.stop))]))])), (6, Cert.ai 1 (Cert.opp [(0, Cert.ai 7
  (Cert.stop)), (2, Cert.ai 7 (Cert.stop)), (3, Cert.ai 7 (Cert.stop)), (7, Cert.ai 8 (Cert.opp [(0, Cert.ai 3
  (Cert.opp [(2, Cert.stop)])), (2, Cert.ai 0 (Cert.stop)), (3, Cert.ai 0 (Cert.stop))])), (8, Cert.ai 7
  (Cert.stop))])), (7, Cert.ai 2 (Cert.opp [(0, Cert.ai 6 (Cert.stop)), (1, Cert.ai 6 (Cert.stop)), (3,
  Cert.ai 6 (Cert.stop)), (6, Cert.ai 8 (Cert.opp [(0, Cert.ai 3 (Cert.opp [(1, Cert.stop)])), (1, Cert.ai 0
  (Cert.stop)), (3, Cert.ai 0 (Cert.stop))])), (8, Cert.ai 6 (Cert.stop))])), (8, Cert.ai 2 (Cert.opp [(0,
  Cert.ai 6 (Cert.stop)), (1, Cert.ai 6 (Cert.stop)), (3, Cert.ai 6 (Cert.stop)), (6, Cert.ai 7 (Cert.opp [(0,
  Cert.ai 1 (Cert.stop)), (1, Cert.ai 0 (Cert.opp [(3, Cert.stop)])), (3, Cert.ai 1 (Cert.stop))])), (7,
  Cert.ai 6 (Cert.stop))]))])), (6, Cert.ai 4 (Cert.opp [(0, Cert.ai 3 (Cert.opp [(1, Cert.ai 5 (Cert.stop)),
  (2, Cert.ai 5 (Cert.stop)), (5, Cert.ai 1 (Cert.opp [(2, Cert.ai 7 (Cert.stop)), (7, Cert.ai 8 (Cert.opp
  [(2, Cert.stop)])), (8, Cert.ai 7 (Cert.stop))])), (7, Cert.ai 5 (Cert.stop)), (8, Cert.ai 5
  (Cert.stop))])), (1, Cert.ai 0 (Cert.opp [(2, Cert.ai 8 (Cert.stop)), (3, Cert.ai 8 (Cert.stop)), (5,
  Cert.ai 8 (Cert.stop)), (7, Cert.ai 8 (Cert.stop)), (8, Cert.ai 7 (Cert.opp [(2, Cert.ai 5 (Cert.opp [(3,
  Cert.stop)])), (3, Cert.ai 2 (Cert.opp [(5, Cert.stop)])), (5, Cert.ai 2 (Cert.opp [(3, Cert.stop)]))]))])),
  (2, Cert.ai 1 (Cert.opp [(0, Cert.ai 7 (Cert.stop)), (3, Cert.ai 7 (Cert.stop)), (5, Cert.ai 7 (Cert.stop)),
  (7, Cert.ai 8 (Cert.opp [(0, Cert.ai 3 (Cert.opp [(5, Cert.stop)])), (3, Cert.ai 0 (Cert.stop)), (5, Cert.ai
  0 (Cert.stop))])), (8, Cert.ai 7 (Cert.stop))])), (3, Cert.ai 0 (Cert.opp [(1, Cert.ai 8 (Cert.stop)), (2,
  Cert.ai 8 (Cert.stop)), (5, Cert.ai 8 (Cert.stop)), (7, Cert.ai 8 (Cert.stop)), (8, Cert.ai 7 (Cert.opp [(1,
  Cert.ai 2 (Cert.opp [(5, Cert.stop)])), (2, Cert.ai 1 (Cert.stop)), (5, Cert.ai 1 (Cert.stop))]))])), (5,
  Cert.ai 1 (Cert.opp [(0, Cert.ai 7 (Cert.stop)), (2, Cert.ai 7 (Cert.stop)), (3, Cert.ai 7 (Cert.stop)), (7,
  Cert.ai 8 (Cert.opp [(0, Cert.ai 3 (Cert.opp [(2, Cert.stop)])), (2, Cert.ai 0 (Cert.stop)), (3, Cert.ai 0
  (Cert.stop))])), (8, Cert.ai 7 (Cert.stop))])), (7, Cert.ai 8 (Cert.opp [(0, Cert.ai 3 (Cert.opp [(1,
  Cert.ai 5 (Cert.stop)), (2, Cert.ai 5 (Cert.stop)), (5, Cert.ai 2 (Cert.opp [(1, Cert.stop)]))])), (1,
  Cert.ai 0 (Cert.stop)), (2, Cert.ai 0 (Cert.stop)), (3, Cert.ai 0 (Cert.stop)), (5, Cert.ai 0
  (Cert.stop))])), (8, Cert.ai 7 (Cert.opp [(0, Cert.ai 1 (Cert.stop)), (1, Cert.ai 3 (Cert.opp [(0, Cert.ai 5
  (Cert.stop)), (2, Cert.ai 5 (Cert.stop)), (5, Cert.ai 2 (Cert.opp [(0, Cert.stop)]))])), (2, Cert.ai 1
  (Cert.stop)), (3, Cert.ai 1 (Cert.stop)), (5, Cert.ai 1 (Cert.stop))]))])), (7, Cert.ai 4 (Cert.opp [(0,
  Cert.ai 3 (Cert.opp [(1, Cert.ai 5 (Cert.stop)), (2, Cert.ai 5 (Cert.stop)), (5, Cert.ai 2 (Cert.opp [(1,
  Cert.ai 6 (Cert.stop)), (6, Cert.ai 8 (Cert.opp [(1, Cert.stop)])), (8, Cert.ai 6 (Cert.stop))])), (6,
  Cert.ai 5 (Cert.stop)), (8, Cert.ai 5 (Cert.stop))])), (1, Cert.ai 0 (Cert.opp [(2, Cert.ai 8 (Cert.stop)),
  (3, Cert.ai 8 (Cert.stop)), (5, Cert.ai 8 (Cert.stop)), (6, Cert.ai 8 (Cert.stop)), (8, Cert.ai 6 (Cert.opp
  [(2, Cert.ai 3 (Cert.stop)), (3, Cert.ai 2 (Cert.stop)), (5, Cert.ai 2 (Cert.stop))]))])), (2, Cert.ai 3
  (Cert.opp [(0, Cert.ai 5 (Cert.stop)), (1, Cert.ai 5 (Cert.stop)), (5, Cert.ai 8 (Cert.opp [(0, Cert.ai 1
  (Cert.opp [(6, Cert.stop)])), (1, Cert.ai 0 (Cert.stop)), (6, Cert.ai 0 (Cert.stop))])), (6, Cert.ai 5
  (Cert.stop)), (8, Cert.ai 5 (Cert.stop))])), (3, Cert.ai 0 (Cert.opp [(1, Cert.ai 8 (Cert.stop)), (2,
  Cert.ai 8 (Cert.stop)), (5, Cert.ai 8 (Cert.stop)), (6, Cert.ai 8 (Cert.stop)), (8, Cert.ai 6 (Cert.opp [(1,
  Cert.ai 2 (Cert.stop)), (2, Cert.ai 5 (Cert.opp [(1, Cert.stop)])), (5, Cert.ai 2 (Cert.stop))]))])), (5,
  Cert.ai 2 (Cert.opp [(0, Cert.ai 6 (Cert.stop)), (1, Cert.ai 6 (Cert.stop)), (3, Cert.ai 6 (Cert.stop)), (6,
  Cert.ai 8 (Cert.opp [(0, Cert.ai 3 (Cert.opp [(1, Cert.stop)])), (1, Cert.ai 0 (Cert.stop)), (3, Cert.ai 0
  (Cert.stop))])), (8, Cert.ai 6 (Cert.stop))])), (6, Cert.ai 8 (Cert.opp [(0, Cert.ai 3 (Cert.opp [(1,
  Cert.ai 5 (Cert.stop)), (2, Cert.ai 5 (Cert.stop)), (5, Cert.ai 2 (Cert.opp [(1, Cert.stop)]))])), (1,
  Cert.ai 0 (Cert.stop)), (2, Cert.ai 0 (Cert.stop)), (3, Cert.ai 0 (Cert.stop)), (5, Cert.ai 0
  (Cert.stop))])), (8, Cert.ai 6 (Cert.opp [(0, Cert.ai 2 (Cert.stop)), (1, Cert.ai 2 (Cert.stop)), (2,
  Cert.ai 5 (Cert.opp [(0, Cert.ai 3 (Cert.stop)), (1, Cert.ai 3 (Cert.stop)), (3, Cert.ai 0 (Cert.opp [(1,
  Cert.stop)]))])), (3, Cert.ai 2 (Cert.stop)), (5, Cert.ai 2 (Cert.stop))]))])), (8, Cert.ai 4 (Cert.opp [(0,
  Cert.ai 1 (Cert.opp [(2, Cert.ai 7 (Cert.stop)), (3, Cert.ai 7 (Cert.stop)), (5, Cert.ai 7 (Cert.stop)), (6,
  Cert.ai 7 (Cert.stop)), (7, Cert.ai 6 (Cert.opp [(2, Cert.ai 5 (Cert.opp [(3, Cert.stop)])), (3, Cert.ai 2
  (Cert.stop)), (5, Cert.ai 2 (Cert.stop))]))])), (1, Cert.ai 2 (Cert.opp [(0, Cert.ai 6 (Cert.stop)), (3,
  Cert.ai 6 (Cert.stop)), (5, Cert.ai 6 (Cert.stop)), (6, Cert.ai 7 (Cert.opp [(0, Cert.ai 3 (Cert.opp [(5,
  Cert.stop)])), (3, Cert.ai 0 (Cert.opp [(5, Cert.stop)])), (5, Cert.ai 0 (Cert.opp [(3, Cert.stop)]))])),
  (7, Cert.ai 6 (Cert.stop))])), (2, Cert.ai 5 (Cert.opp [(0, Cert.ai 3 (Cert.stop)), (1, Cert.ai 3
  (Cert.stop)), (3, Cert.ai 1 (Cert.opp [(0, Cert.ai 7 (Cert.stop)), (6, Cert.ai 7 (Cert.stop)), (7, Cert.ai 6
  (Cert.opp [(0, Cert.stop)]))])), (6, Cert.ai 3 (Cert.stop)), (7, Cert.ai 3 (Cert.stop))])), (3, Cert.ai 1
  (Cert.opp [(0, Cert.ai 7 (Cert.stop)), (2, Cert.ai 7 (Cert.stop)), (5, Cert.ai 7 (Cert.stop)), (6, Cert.ai 7
  (Cert.stop)), (7, Cert.ai 6 (Cert.opp [(0, Cert.ai 2 (Cert.stop)), (2, Cert.ai 5 (Cert.opp [(0,
  Cert.stop)])), (5, Cert.ai 2 (Cert.stop))]))])), (5, Cert.ai 2 (Cert.opp [(0, Cert.ai 6 (Cert.stop)), (1,
  Cert.ai 6 (Cert.stop)), (3, Cert.ai 6 (Cert.stop)), (6, Cert.ai 7 (Cert.opp [(0, Cert.ai 1 (Cert.stop)), (1,
  Cert.ai 0 (Cert.opp [(3, Cert.stop)])), (3, Cert.ai 1 (Cert.stop))])), (7, Cert.ai 6 (Cert.stop))])), (6,
  Cert.ai 7 (Cert.opp [(0, Cert.ai 1 (Cert.stop)), (1, Cert.ai 3 (Cert.opp [(0, Cert.ai 5 (Cert.stop)), (2,
  Cert.ai 5 (Cert.stop)), (5, Cert.ai 2 (Cert.opp [(0, Cert.stop)]))])), (2, Cert.ai 1 (Cert.stop)), (3,
  Cert.ai 1 (Cert.stop)), (5, Cert.ai 1 (Cert.stop))])), (7, Cert.ai 6 (Cert.opp [(0, Cert.ai 2 (Cert.stop)),
  (1, Cert.ai 2 (Cert.stop)), (2, Cert.ai 5 (Cert.opp [(0, Cert.ai 3 (Cert.stop)), (1, Cert.ai 3 (Cert.stop)),
  (3, Cert.ai 0 (Cert.opp [(1, Cert.stop)]))])), (3, Cert.ai 2 (Cert.stop)), (5, Cert.ai 2 (Cert.stop))]))]))]

/-- The configuration named by the claim: strategy 'minimax', depth 9,
with the real `computeWinner` injected. -/
def aiOpts : Opts := ⟨"minimax", some 9, computeWinner⟩

/-- The games of the claim: starting from the empty board (X to move, as
in the hook), the side `aiPlayer` always plays `chooseBestMove` with
`aiOpts`, the opponent plays an arbitrary legal move, and play stops at a
won or full board. -/
inductive Reach (aiPlayer : Player) : Board → Player → Prop
  | init : Reach aiPlayer emptyBoard Player.X
  | aiMove {b : Board} : Reach aiPlayer b aiPlayer → computeWinner b = none →
      b.all Option.isSome = false →
      Reach aiPlayer (b.set (chooseBestMove b aiPlayer aiOpts).toNat (some aiPlayer))
        aiPlayer.other
  | oppMove {b : Board} {m : Nat} : Reach aiPlayer b aiPlayer.other →
      computeWinner b = none → m < 9 → b.getD m none = none →
      Reach aiPlayer (b.set m (some aiPlayer.other)) aiPlayer

theorem Score.blt_irrefl (a : Score) : Score.blt a a = false := by
  cases a <;> simp [Score.blt]

theorem Score.blt_trans {a b c : Score} (h1 : Score.blt a b = true)
    (h2 : Score.blt b c = true) : Score.blt a c = true := by
  cases a <;> cases b <;> cases c <;> simp_all [Score.blt] <;> omega

theorem Score.ge_trans {a b c : Score} (h1 : Score.blt a b = false)
    (h2 : Score.blt b c = false) : Score.blt a c = false := by
  cases a <;> cases b <;> cases c <;> simp_all [Score.blt] <;> omega

theorem Score.not_blt_total {a b : Score} (h : Score.blt a b = false) :
    a = b ∨ Score.blt b a = true := by
  cases a <;> cases b <;> simp_all [Score.blt] <;> omega

theorem Score.isNonNeg_of_ge {a b : Score} (h : Score.blt a b = false)
    (hb : Score.isNonNeg b = true) : Score.isNonNeg a = true := by
  cases a <;> cases b <;> simp_all [Score.blt, Score.isNonNeg] <;> omega

theorem Score.maxB_ge_left (a x : Score) :
    Score.blt (Score.maxB a x) a = false := by
  unfold Score.maxB
  by_cases h : Score.blt a x = true
  · simp only [h, if_pos]
    cases hax : Score.blt x a
    · rfl
    · exact absurd (Score.blt_trans h hax) (by simp [Score.blt_irrefl])
  · simp only [Bool.not_eq_true] at h
    simp [h, Score.blt_irrefl]

theorem Score.maxB_ge_right (a x : Score) :
    Score.blt (Score.maxB a x) x = false := by
  unfold Score.maxB
  by_cases h : Score.blt a x = true
  · simp [h, Score.blt_irrefl]
  · simp only [Bool.not_eq_true] at h
    simp [h]

theorem Score.minB_le_left (a x : Score) :
    Score.blt a (Score.minB a x) = false := by
  unfold Score.minB
  by_cases h : Score.blt x a = true
  · simp only [h, if_pos]
    cases hax : Score.blt a x
    · rfl
    · exact absurd (Score.blt_trans hax h) (by simp [Score.blt_irrefl])
  · simp only [Bool.not_eq_true] at h
    simp [h, Score.blt_irrefl]

theorem Score.minB_le_right (a x : Score) :
    Score.blt x (Score.minB a x) = false := by
  unfold Score.minB
  by_cases h : Score.blt x a = true
  · simp [h, Score.blt_irrefl]
  · simp only [Bool.not_eq_true] at h
    simp [h]

theorem getD_set_self (b : Board) (m : Nat) (v : Cell) (h : m < b.length) :
    (b.set m v).getD m none = v := by
  induction b generalizing m with
  | nil => simp at h
  | cons c t ih =>
    cases m with
    | zero => rfl
    | succ k => exact ih k (Nat.lt_of_succ_lt_succ h)

theorem getD_set_ne (b : Board) {m i : Nat} (v : Cell) (h : i ≠ m) :
    (b.set m v).getD i none = b.getD i none := by
  induction b generalizing m i with
  | nil => rfl
  | cons c t ih =>
    cases m with
    | zero =>
      cases i with
      | zero => exact absurd rfl h
      | succ j => rfl
    | succ k =>
      cases i with
      | zero => rfl
      | succ j => exact ih (fun hji => h (by rw [hji]))

theorem set_getD_none (b : Board) (m : Nat) (h : b.getD m none = none) :
    b.set m none = b := by
  induction b generalizing m with
  | nil => rfl
  | cons c t ih =>
    cases m with
    | zero => simp_all [List.getD]
    | succ k =>
      simp only [List.set]
      rw [ih k h]

theorem mem_availableMoves {b : Board} {m : Nat} :
    m ∈ availableMoves b ↔ m < 9 ∧ b.getD m none = none := by
  simp [availableMoves, List.mem_filter, List.mem_range, Option.isNone_iff_eq_none]

theorem not_full_of_empty {b : Board} {i : Nat} (hi : i < b.length)
    (h : b.getD i none = none) : b.all Option.isSome = false := by
  cases hall : b.all Option.isSome with
  | false => rfl
  | true =>
    rw [List.all_eq_true] at hall
    have hmem : b.getD i none ∈ b := by
      rw [b.getD_eq_getElem none hi]
      exact b.getElem_mem hi
    have := hall _ hmem
    rw [h] at this
    simp at this

theorem availableMoves_ne_nil {b : Board} (hl : b.length = 9)
    (h : b.all Option.isSome = false) : availableMoves b ≠ [] := by
  have hex : ∃ x ∈ b, ¬ Option.isSome x = true := by
    by_contra hc
    push_neg at hc
    have : b.all Option.isSome = true := List.all_eq_true.mpr hc
    rw [this] at h
    exact Bool.true_eq_false.mp h
  obtain ⟨x, hxb, hxs⟩ := hex
  have hxn : x = none := by
    cases x with
    | none => rfl
    | some p => simp at hxs
  subst hxn
  obtain ⟨i, hi, hieq⟩ := List.mem_iff_getElem.mp hxb
  have hgd : b.getD i none = none := by
    rw [b.getD_eq_getElem none hi, hieq]
  intro hnil
  have : i ∈ availableMoves b := mem_availableMoves.mpr ⟨by omega, hgd⟩
  rw [hnil] at this
  simp at this

theorem minimaxStep_board (recur : Player → Board → SearchRes × Board)
    (Hres : ∀ p b, (recur p b).2 = b) (aiPlayer player : Player) :
    ∀ (moves : List Nat) (b : Board) (best : SearchRes),
      (∀ m ∈ moves, b.getD m none = none) →
      (minimaxStep recur aiPlayer player moves b best).2 = b := by
  intro moves
  induction moves with
  | nil => intro b best _; rfl
  | cons m rest ih =>
    intro b best hemp
    have hm : b.getD m none = none := hemp m (List.mem_cons_self m rest)
    have hb3 : ((recur player.other (b.set m (some player))).2).set m none = b := by
      rw [Hres, List.set_set, set_getD_none b m hm]
    simp only [minimaxStep]
    rw [hb3]
    exact ih b _ (fun x hx => hemp x (List.mem_cons_of_mem m hx))

theorem foldl_maxB_ge_init :
    ∀ (xs : List Score) (a : Score),
      Score.blt (xs.foldl Score.maxB a) a = false := by
  intro xs
  induction xs with
  | nil => intro a; exact Score.blt_irrefl a
  | cons x t ih =>
    intro a
    exact Score.ge_trans (ih (Score.maxB a x)) (Score.maxB_ge_left a x)

theorem foldl_maxB_ge_mem :
    ∀ (xs : List Score) (a x : Score), x ∈ xs →
      Score.blt (xs.foldl Score.maxB a) x = false := by
  intro xs
  induction xs with
  | nil => intro a x hx; simp at hx
  | cons y t ih =>
    intro a x hx
    rcases List.mem_cons.mp hx with hxy | hxt
    · subst hxy
      exact Score.ge_trans (foldl_maxB_ge_init t (Score.maxB a x))
        (Score.maxB_ge_right a x)
    · exact ih (Score.maxB a y) x hxt

theorem foldl_minB_le_init :
    ∀ (xs : List Score) (a : Score),
      Score.blt a (xs.foldl Score.minB a) = false := by
  intro xs
  induction xs with
  | nil => intro a; exact Score.blt_irrefl a
  | cons x t ih =>
    intro a
    exact Score.ge_trans (Score.minB_le_left a x) (ih (Score.minB a x))

theorem foldl_minB_le_mem :
    ∀ (xs : List Score) (a x : Score), x ∈ xs →
      Score.blt x (xs.foldl Score.minB a) = false := by
  intro xs
  induction xs with
  | nil => intro a x hx; simp at hx
  | cons y t ih =>
    intro a x hx
    rcases List.mem_cons.mp hx with hxy | hxt
    · subst hxy
      exact Score.ge_trans (Score.minB_le_right a x)
        (foldl_minB_le_init t (Score.minB a x))
    · exact ih (Score.minB a y) x hxt

theorem minimaxStep_max_char (recur : Player → Board → SearchRes × Board)
    (Hres : ∀ p b, (recur p b).2 = b) (aiPlayer : Player) :
    ∀ (moves : List Nat) (b : Board) (s0 : Score) (mv0 : Int),
      (∀ m ∈ moves, b.getD m none = none) →
      ∀ S, S = moves.foldl
          (fun a m => Score.maxB a (childScore recur aiPlayer b m)) s0 →
      (minimaxStep recur aiPlayer aiPlayer moves b ⟨s0, mv0⟩).1.score = S
      ∧ (S = s0 → (minimaxStep recur aiPlayer aiPlayer moves b ⟨s0, mv0⟩).1.move = mv0)
      ∧ (S ≠ s0 → ∃ m,
          moves.find? (fun m2 => decide (childScore recur aiPlayer b m2 = S)) = some m
          ∧ (minimaxStep recur aiPlayer aiPlayer moves b ⟨s0, mv0⟩).1.move = (m : Int)) := by
  intro moves
  induction moves with
  | nil =>
    intro b s0 mv0 _ S hS
    simp only [List.foldl_nil] at hS
    exact ⟨hS.symm, fun _ => rfl, fun hne => absurd hS hne⟩
  | cons m rest ih =>
    intro b s0 mv0 hemp S hS
    have hm : b.getD m none = none := hemp m (List.mem_cons_self m rest)
    have hrest : ∀ x ∈ rest, b.getD x none = none :=
      fun x hx => hemp x (List.mem_cons_of_mem m hx)
    have hb3 : ((recur aiPlayer.other (b.set m (some aiPlayer))).2).set m none = b := by
      rw [Hres, List.set_set, set_getD_none b m hm]
    have hunf : minimaxStep recur aiPlayer aiPlayer (m :: rest) b ⟨s0, mv0⟩
        = minimaxStep recur aiPlayer aiPlayer rest b
            (if Score.blt s0 (childScore recur aiPlayer b m)
             then ⟨childScore recur aiPlayer b m, (m : Int)⟩ else ⟨s0, mv0⟩) := by
      rw [minimaxStep, if_pos rfl, hb3]
      rfl
    have hSfold : S = rest.foldl
        (fun a x => Score.maxB a (childScore recur aiPlayer b x))
        (Score.maxB s0 (childScore recur aiPlayer b m)) := by
      rw [hS]; rfl
    cases hblt : Score.blt s0 (childScore recur aiPlayer b m) with
    | true =>
      have hmaxB : Score.maxB s0 (childScore recur aiPlayer b m)
          = childScore recur aiPlayer b m := by
        unfold Score.maxB; rw [hblt]; rfl
      have hS2 : S = rest.foldl
          (fun a x => Score.maxB a (childScore recur aiPlayer b x))
          (childScore recur aiPlayer b m) := by rw [hSfold, hmaxB]
      obtain ⟨ih1, ih2, ih3⟩ := ih b (childScore recur aiPlayer b m) (m : Int) hrest S hS2
      have hSgem : Score.blt S (childScore recur aiPlayer b m) = false := by
        rw [hS2, ← List.foldl_map]
        exact foldl_maxB_ge_init (rest.map (childScore recur aiPlayer b)) _
      have hSne : S ≠ s0 := by
        intro hcon
        rw [hcon] at hSgem
        rw [hSgem] at hblt
        exact Bool.false_ne_true hblt
      refine ⟨?_, fun hc => absurd hc hSne, fun _ => ?_⟩
      · rw [hunf, if_pos hblt]; exact ih1
      · by_cases hfm : childScore recur aiPlayer b m = S
        · refine ⟨m, ?_, ?_⟩
          · simp [List.find?_cons, hfm]
          · rw [hunf, if_pos hblt]
            exact ih2 hfm.symm
        · obtain ⟨m2, hfind, hmv⟩ := ih3 (fun hc => hfm (by rw [hc]))
          refine ⟨m2, ?_, ?_⟩
          · simp only [List.find?_cons]
            rw [decide_eq_false hfm]
            exact hfind
          · rw [hunf, if_pos hblt]; exact hmv
    | false =>
      have hmaxB : Score.maxB s0 (childScore recur aiPlayer b m) = s0 := by
        unfold Score.maxB; rw [hblt]; rfl
      have hS2 : S = rest.foldl
          (fun a x => Score.maxB a (childScore recur aiPlayer b x)) s0 := by
        rw [hSfold, hmaxB]
      obtain ⟨ih1, ih2, ih3⟩ := ih b s0 mv0 hrest S hS2
      have hunf2 : minimaxStep recur aiPlayer aiPlayer (m :: rest) b ⟨s0, mv0⟩
          = minimaxStep recur aiPlayer aiPlayer rest b ⟨s0, mv0⟩ := by
        rw [hunf, if_neg (by rw [hblt]; exact Bool.false_ne_true)]
      refine ⟨by rw [hunf2]; exact ih1, fun hc => by rw [hunf2]; exact ih2 hc,
        fun hSne => ?_⟩
      have hge0 : Score.blt S s0 = false := by
        rw [hS2, ← List.foldl_map]
        exact foldl_maxB_ge_init (rest.map (childScore recur aiPlayer b)) s0
      have hfm : childScore recur aiPlayer b m ≠ S := by
        intro hcon
        have h1 : Score.blt s0 S = false := by rw [← hcon]; exact hblt
        rcases Score.not_blt_total h1 with he | hgt
        · exact hSne he.symm
        · rw [hgt] at hge0; exact Bool.true_eq_false.mp hge0
      obtain ⟨m2, hfind, hmv⟩ := ih3 hSne
      refine ⟨m2, ?_, by rw [hunf2]; exact hmv⟩
      simp only [List.find?_cons]
      rw [decide_eq_false hfm]
      exact hfind

theorem minimaxStep_min_char (recur : Player → Board → SearchRes × Board)
    (Hres : ∀ p b, (recur p b).2 = b) (aiPlayer player : Player)
    (hpne : ¬ player = aiPlayer) :
    ∀ (moves : List Nat) (b : Board) (s0 : Score) (mv0 : Int),
      (∀ m ∈ moves, b.getD m none = none) →
      ∀ S, S = moves.foldl
          (fun a m => Score.minB a (childScore recur player b m)) s0 →
      (minimaxStep recur aiPlayer player moves b ⟨s0, mv0⟩).1.score = S
      ∧ (S = s0 → (minimaxStep recur aiPlayer player moves b ⟨s0, mv0⟩).1.move = mv0)
      ∧ (S ≠ s0 → ∃ m,
          moves.find? (fun m2 => decide (childScore recur player b m2 = S)) = some m
          ∧ (minimaxStep recur aiPlayer player moves b ⟨s0, mv0⟩).1.move = (m : Int)) := by
  intro moves
  induction moves with
  | nil =>
    intro b s0 mv0 _ S hS
    simp only [List.foldl_nil] at hS
    exact ⟨hS.symm, fun _ => rfl, fun hne => absurd hS hne⟩
  | cons m rest ih =>
    intro b s0 mv0 hemp S hS
    have hm : b.getD m none = none := hemp m (List.mem_cons_self m rest)
    have hrest : ∀ x ∈ rest, b.getD x none = none :=
      fun x hx => hemp x (List.mem_cons_of_mem m hx)
    have hb3 : ((recur player.other (b.set m (some player))).2).set m none = b := by
      rw [Hres, List.set_set, set_getD_none b m hm]
    have hunf : minimaxStep recur aiPlayer player (m :: rest) b ⟨s0, mv0⟩
        = minimaxStep recur aiPlayer player rest b
            (if Score.blt (childScore recur player b m) s0
             then ⟨childScore recur player b m, (m : Int)⟩ else ⟨s0, mv0⟩) := by
      rw [minimaxStep, if_neg hpne, hb3]
      rfl
    have hSfold : S = rest.foldl
        (fun a x => Score.minB a (childScore recur player b x))
        (Score.minB s0 (childScore recur player b m)) := by
      rw [hS]; rfl
    cases hblt : Score.blt (childScore recur player b m) s0 with
    | true =>
      have hminB : Score.minB s0 (childScore recur player b m)
          = childScore recur player b m := by
        unfold Score.minB; rw [hblt]; rfl
      have hS2 : S = rest.foldl
          (fun a x => Score.minB a (childScore recur player b x))
          (childScore recur player b m) := by rw [hSfold, hminB]
      obtain ⟨ih1, ih2, ih3⟩ := ih b (childScore recur player b m) (m : Int) hrest S hS2
      have hSgem : Score.blt (childScore recur player b m) S = false := by
        rw [hS2, ← List.foldl_map]
        exact foldl_minB_le_init (rest.map (childScore recur player b)) _
      have hSne : S ≠ s0 := by
        intro hcon
        rw [hcon] at hSgem
        rw [hSgem] at hblt
        exact Bool.false_ne_true hblt
      refine ⟨?_, fun hc => absurd hc hSne, fun _ => ?_⟩
      · rw [hunf, if_pos hblt]; exact ih1
      · by_cases hfm : childScore recur player b m = S
        · refine ⟨m, ?_, ?_⟩
          · simp [List.find?_cons, hfm]
          · rw [hunf, if_pos hblt]
            exact ih2 hfm.symm
        · obtain ⟨m2, hfind, hmv⟩ := ih3 (fun hc => hfm (by rw [hc]))
          refine ⟨m2, ?_, ?_⟩
          · simp only [List.find?_cons]
            rw [decide_eq_false hfm]
            exact hfind
          · rw [hunf, if_pos hblt]; exact hmv
    | false =>
      have hminB : Score.minB s0 (childScore recur player b m) = s0 := by
        unfold Score.minB; rw [hblt]; rfl
      have hS2 : S = rest.foldl
          (fun a x => Score.minB a (childScore recur player b x)) s0 := by
        rw [hSfold, hminB]
      obtain ⟨ih1, ih2, ih3⟩ := ih b s0 mv0 hrest S hS2
      have hunf2 : minimaxStep recur aiPlayer player (m :: rest) b ⟨s0, mv0⟩
          = minimaxStep recur aiPlayer player rest b ⟨s0, mv0⟩ := by
        rw [hunf, if_neg (by rw [hblt]; exact Bool.false_ne_true)]
      refine ⟨by rw [hunf2]; exact ih1, fun hc => by rw [hunf2]; exact ih2 hc,
        fun hSne => ?_⟩
      have hge0 : Score.blt s0 S = false := by
        rw [hS2, ← List.foldl_map]
        exact foldl_minB_le_init (rest.map (childScore recur player b)) s0
      have hfm : childScore recur player b m ≠ S := by
        intro hcon
        have h1 : Score.blt S s0 = false := by rw [← hcon]; exact hblt
        rcases Score.not_blt_total h1 with he | hgt
        · exact hSne he
        · rw [hgt] at hge0; exact Bool.true_eq_false.mp hge0
      obtain ⟨m2, hfind, hmv⟩ := ih3 hSne
      refine ⟨m2, ?_, by rw [hunf2]; exact hmv⟩
      simp only [List.find?_cons]
      rw [decide_eq_false hfm]
      exact hfind

theorem minimax_board (cw : Board → Option Player) (aiPlayer : Player) :
    ∀ (d : Nat) (p : Player) (b : Board), (minimax cw aiPlayer d p b).2 = b := by
  intro d
  induction d with
  | zero =>
    intro p b
    simp only [minimax]
    cases terminalScore cw aiPlayer b 0 <;> rfl
  | succ n ih =>
    intro p b
    simp only [minimax]
    cases terminalScore cw aiPlayer b (n + 1) with
    | some t => rfl
    | none =>
      exact minimaxStep_board _ (fun q c => ih q c) aiPlayer p _ b _
        (fun m hm => (mem_availableMoves.mp hm).2)

theorem terminalScore_eq_none {cw : Board → Option Player} {aiPlayer : Player}
    {b : Board} {dl : Nat} :
    terminalScore cw aiPlayer b dl = none ↔
      cw b = none ∧ b.all Option.isSome = false := by
  unfold terminalScore
  cases hw : cw b with
  | some w =>
    by_cases hwa : w = aiPlayer <;> simp [hwa]
  | none =>
    cases hall : b.all Option.isSome <;> simp

theorem minimax_succ_eq {cw : Board → Option Player} {aiPlayer : Player}
    {d : Nat} {p : Player} {b : Board}
    (hts : terminalScore cw aiPlayer b (d + 1) = none) :
    minimax cw aiPlayer (d + 1) p b
      = minimaxStep (minimax cw aiPlayer d) aiPlayer p (availableMoves b) b
          ⟨if p = aiPlayer then Score.negInf else Score.posInf, -1⟩ := by
  rw [minimax, hts]

theorem minimax_terminal_eq {cw : Board → Option Player} {aiPlayer : Player}
    {d : Nat} {p : Player} {b : Board} {t : Int}
    (hts : terminalScore cw aiPlayer b d = some t) :
    (minimax cw aiPlayer d p b).1 = ⟨Score.num t, -1⟩ := by
  cases d with
  | zero => rw [minimax, hts]
  | succ n => rw [minimax, hts]

theorem minimax_num (cw : Board → Option Player) (aiPlayer : Player) :
    ∀ (d : Nat) (p : Player) (b : Board), b.length = 9 →
      ∃ n : Int, (minimax cw aiPlayer d p b).1.score = Score.num n := by
  intro d
  induction d with
  | zero =>
    intro p b _
    rw [minimax]
    cases terminalScore cw aiPlayer b 0 with
    | some t => exact ⟨t, rfl⟩
    | none => exact ⟨0, rfl⟩
  | succ n ih =>
    intro p b hl
    cases hts : terminalScore cw aiPlayer b (n + 1) with
    | some t => exact ⟨t, by rw [minimax_terminal_eq hts]⟩
    | none =>
      obtain ⟨hcw, hfull⟩ := terminalScore_eq_none.mp hts
      have hne : availableMoves b ≠ [] := availableMoves_ne_nil hl hfull
      obtain ⟨m0, hm0⟩ := List.exists_mem_of_ne_nil _ hne
      have hemp : ∀ m ∈ availableMoves b, b.getD m none = none :=
        fun m hm => (mem_availableMoves.mp hm).2
      have hchildlen : ∀ (m : Nat), (b.set m (some p)).length = 9 := by
        intro m; rw [List.length_set]; exact hl
      have hcsnum : ∃ k : Int,
          childScore (minimax cw aiPlayer n) p b m0 = Score.num k := by
        unfold childScore
        exact ih p.other _ (hchildlen m0)
      rw [minimax_succ_eq hts]
      by_cases hp : p = aiPlayer
      · subst hp
        obtain ⟨c1, c2, c3⟩ := minimaxStep_max_char _
          (fun q c => minimax_board cw p n q c) p (availableMoves b) b
          Score.negInf (-1) hemp _ rfl
        rw [if_pos rfl]
        rw [c1]
        by_cases hSe : (availableMoves b).foldl
            (fun a m => Score.maxB a (childScore (minimax cw p n) p b m))
            Score.negInf = Score.negInf
        · exfalso
          have hub : Score.blt
              ((availableMoves b).foldl
                (fun a m => Score.maxB a (childScore (minimax cw p n) p b m))
                Score.negInf)
              (childScore (minimax cw p n) p b m0) = false := by
            rw [← List.foldl_map]
            exact foldl_maxB_ge_mem _ _ _ (List.mem_map_of_mem _ hm0)
          obtain ⟨k, hk⟩ := hcsnum
          rw [hSe, hk] at hub
          simp [Score.blt] at hub
        · obtain ⟨m, hfind, _⟩ := c3 hSe
          have hpm := List.find?_some hfind
          rw [decide_eq_true_eq] at hpm
          obtain ⟨k, hk⟩ : ∃ k : Int,
              childScore (minimax cw p n) p b m = Score.num k := by
            unfold childScore
            exact ih p.other _ (hchildlen m)
          exact ⟨k, by rw [← hpm, hk]⟩
      · obtain ⟨c1, c2, c3⟩ := minimaxStep_min_char _
          (fun q c => minimax_board cw aiPlayer n q c) aiPlayer p hp
          (availableMoves b) b Score.posInf (-1) hemp _ rfl
        rw [if_neg hp]
        rw [c1]
        by_cases hSe : (availableMoves b).foldl
            (fun a m => Score.minB a (childScore (minimax cw aiPlayer n) p b m))
            Score.posInf = Score.posInf
        · exfalso
          have hlb : Score.blt (childScore (minimax cw aiPlayer n) p b m0)
              ((availableMoves b).foldl
                (fun a m => Score.minB a (childScore (minimax cw aiPlayer n) p b m))
                Score.posInf) = false := by
            rw [← List.foldl_map]
            exact foldl_minB_le_mem _ _ _ (List.mem_map_of_mem _ hm0)
          obtain ⟨k, hk⟩ : ∃ k : Int,
              childScore (minimax cw aiPlayer n) p b m0 = Score.num k := by
            unfold childScore
            exact ih p.other _ (hchildlen m0)
          rw [hSe, hk] at hlb
          simp [Score.blt] at hlb
        · obtain ⟨m, hfind, _⟩ := c3 hSe
          have hpm := List.find?_some hfind
          rw [decide_eq_true_eq] at hpm
          obtain ⟨k, hk⟩ : ∃ k : Int,
              childScore (minimax cw aiPlayer n) p b m = Score.num k := by
            unfold childScore
            exact ih p.other _ (hchildlen m)
          exact ⟨k, by rw [← hpm, hk]⟩

theorem minimax_succ_spec (cw : Board → Option Player) (aiPlayer : Player)
    (d : Nat) (p : Player) (b : Board) (hl : b.length = 9)
    (hts : terminalScore cw aiPlayer b (d + 1) = none) :
    ∃ m : Nat, m ∈ availableMoves b
      ∧ (minimax cw aiPlayer (d + 1) p b).1.move = (m : Int)
      ∧ childScore (minimax cw aiPlayer d) p b m
          = (minimax cw aiPlayer (d + 1) p b).1.score := by
  obtain ⟨hcw, hfull⟩ := terminalScore_eq_none.mp hts
  have hne : availableMoves b ≠ [] := availableMoves_ne_nil hl hfull
  obtain ⟨m0, hm0⟩ := List.exists_mem_of_ne_nil _ hne
  have hemp : ∀ m ∈ availableMoves b, b.getD m none = none :=
    fun m hm => (mem_availableMoves.mp hm).2
  have hchildnum : ∀ (m : Nat) (q : Player), ∃ k : Int,
      childScore (minimax cw aiPlayer d) q b m = Score.num k := by
    intro m q
    unfold childScore
    exact minimax_num cw aiPlayer d q.other _ (by rw [List.length_set]; exact hl)
  by_cases hp : p = aiPlayer
  · subst hp
    obtain ⟨c1, c2, c3⟩ := minimaxStep_max_char _
      (fun q c => minimax_board cw p d q c) p (availableMoves b) b
      Score.negInf (-1) hemp _ rfl
    have hSe : (availableMoves b).foldl
        (fun a m => Score.maxB a (childScore (minimax cw p d) p b m))
        Score.negInf ≠ Score.negInf := by
      intro hcon
      have hub : Score.blt
          ((availableMoves b).foldl
            (fun a m => Score.maxB a (childScore (minimax cw p d) p b m))
            Score.negInf)
          (childScore (minimax cw p d) p b m0) = false := by
        rw [← List.foldl_map]
        exact foldl_maxB_ge_mem _ _ _ (List.mem_map_of_mem _ hm0)
      obtain ⟨k, hk⟩ := hchildnum m0 p
      rw [hcon, hk] at hub
      simp [Score.blt] at hub
    obtain ⟨m, hfind, hmv⟩ := c3 hSe
    have hpm := List.find?_some hfind
    rw [decide_eq_true_eq] at hpm
    refine ⟨m, List.mem_of_find?_eq_some hfind, ?_, ?_⟩
    · rw [minimax_succ_eq hts, if_pos rfl]
      exact hmv
    · rw [minimax_succ_eq hts, if_pos rfl, c1]
      exact hpm
  · obtain ⟨c1, c2, c3⟩ := minimaxStep_min_char _
      (fun q c => minimax_board cw aiPlayer d q c) aiPlayer p hp
      (availableMoves b) b Score.posInf (-1) hemp _ rfl
    have hSe : (availableMoves b).foldl
        (fun a m => Score.minB a (childScore (minimax cw aiPlayer d) p b m))
        Score.posInf ≠ Score.posInf := by
      intro hcon
      have hlb : Score.blt (childScore (minimax cw aiPlayer d) p b m0)
          ((availableMoves b).foldl
            (fun a m => Score.minB a (childScore (minimax cw aiPlayer d) p b m))
            Score.posInf) = false := by
        rw [← List.foldl_map]
        exact foldl_minB_le_mem _ _ _ (List.mem_map_of_mem _ hm0)
      obtain ⟨k, hk⟩ := hchildnum m0 p
      rw [hcon, hk] at hlb
      simp [Score.blt] at hlb
    obtain ⟨m, hfind, hmv⟩ := c3 hSe
    have hpm := List.find?_some hfind
    rw [decide_eq_true_eq] at hpm
    refine ⟨m, List.mem_of_find?_eq_some hfind, ?_, ?_⟩
    · rw [minimax_succ_eq hts, if_neg hp]
      exact hmv
    · rw [minimax_succ_eq hts, if_neg hp, c1]
      exact hpm

theorem minimax_succ_ub (cw : Board → Option Player) (aiPlayer : Player)
    (d : Nat) (b : Board)
    (hts : terminalScore cw aiPlayer b (d + 1) = none) :
    ∀ m ∈ availableMoves b,
      Score.blt (minimax cw aiPlayer (d + 1) aiPlayer b).1.score
        (childScore (minimax cw aiPlayer d) aiPlayer b m) = false := by
  intro m hm
  have hemp : ∀ x ∈ availableMoves b, b.getD x none = none :=
    fun x hx => (mem_availableMoves.mp hx).2
  obtain ⟨c1, _, _⟩ := minimaxStep_max_char _
    (fun q c => minimax_board cw aiPlayer d q c) aiPlayer (availableMoves b) b
    Score.negInf (-1) hemp _ rfl
  rw [minimax_succ_eq hts, if_pos rfl, c1, ← List.foldl_map]
  exact foldl_maxB_ge_mem _ _ _ (List.mem_map_of_mem _ hm)

theorem minimax_succ_lb (cw : Board → Option Player) (aiPlayer : Player)
    (d : Nat) (p : Player) (b : Board) (hp : ¬ p = aiPlayer)
    (hts : terminalScore cw aiPlayer b (d + 1) = none) :
    ∀ m ∈ availableMoves b,
      Score.blt (childScore (minimax cw aiPlayer d) p b m)
        (minimax cw aiPlayer (d + 1) p b).1.score = false := by
  intro m hm
  have hemp : ∀ x ∈ availableMoves b, b.getD x none = none :=
    fun x hx => (mem_availableMoves.mp hx).2
  obtain ⟨c1, _, _⟩ := minimaxStep_min_char _
    (fun q c => minimax_board cw aiPlayer d q c) aiPlayer p hp
    (availableMoves b) b Score.posInf (-1) hemp _ rfl
  rw [minimax_succ_eq hts, if_neg hp, c1, ← List.foldl_map]
  exact foldl_minB_le_mem _ _ _ (List.mem_map_of_mem _ hm)

theorem full_getD_isSome {b : Board} {i : Nat}
    (hall : b.all Option.isSome = true) (hi : i < b.length) :
    (b.getD i none).isSome = true := by
  rw [List.all_eq_true] at hall
  have hmem : b.getD i none ∈ b := by
    rw [b.getD_eq_getElem none hi]
    exact b.getElem_mem hi
  exact hall _ hmem

theorem terminalScore_of_full {cw : Board → Option Player} {aiPlayer : Player}
    {b : Board} {dl : Nat} (hall : b.all Option.isSome = true) :
    ∃ t, terminalScore cw aiPlayer b dl = some t := by
  unfold terminalScore
  cases cw b with
  | some w => by_cases hwa : w = aiPlayer <;> simp [hwa]
  | none => simp [hall]

theorem minimax_full_move {cw : Board → Option Player} {aiPlayer : Player}
    {d : Nat} {p : Player} {b : Board} (hall : b.all Option.isSome = true) :
    (minimax cw aiPlayer d p b).1.move = -1 := by
  obtain ⟨t, ht⟩ := @terminalScore_of_full cw aiPlayer b d hall
  rw [minimax_terminal_eq ht]

theorem chooseBestMove_eq_quick {b : Board} {ai : Player} {opts : Opts}
    (hl : b.length = 9) (hq : opts.strategy = "quick") :
    chooseBestMove b ai opts = quickHeuristic b := by
  unfold chooseBestMove
  rw [if_neg (fun hc => hc hl), if_pos hq]

theorem chooseBestMove_eq_driver {b : Board} {ai : Player} {opts : Opts}
    (hl : b.length = 9) (hq : ¬ opts.strategy = "quick") :
    chooseBestMove b ai opts
      = minimaxDriver b ai (opts.depth.getD 9) opts.computeWinner := by
  unfold chooseBestMove
  rw [if_neg (fun hc => hc hl), if_neg hq]

theorem clampDepth_of_neg {dep : Int} (h : dep < 0) : clampDepth dep = 1 := by
  unfold clampDepth
  rw [if_neg (by omega)]
  rw [Int.min_def, Int.max_def]
  split_ifs <;> omega

theorem clampDepth_of_big {dep : Int} (h : 9 < dep) : clampDepth dep = 9 := by
  unfold clampDepth
  rw [if_neg (by omega)]
  rw [Int.min_def, Int.max_def]
  split_ifs <;> omega

theorem clampDepth_toNat_pos (dep : Int) : 1 ≤ (clampDepth dep).toNat := by
  have h1 : 1 ≤ clampDepth dep := le_max_left 1 _
  omega

theorem quickHeuristic_spec {b : Board} (hl : b.length = 9)
    (hemp : ∃ i, i < 9 ∧ b.getD i none = none) :
    ∃ m : Nat, m < 9 ∧ b.getD m none = none ∧ quickHeuristic b = (m : Int) := by
  unfold quickHeuristic
  by_cases hc : (b.getD 4 none).isNone = true
  · exact ⟨4, by omega, Option.isNone_iff_eq_none.mp hc, by rw [if_pos hc]; rfl⟩
  · rw [if_neg hc]
    cases hcor : [0, 2, 6, 8].find? (fun i => (b.getD i none).isNone) with
    | some i =>
      have hmem := List.mem_of_find?_eq_some hcor
      have hpred := List.find?_some hcor
      have hi9 : i < 9 := by
        simp only [List.mem_cons, List.not_mem_nil, or_false] at hmem
        rcases hmem with h | h | h | h <;> omega
      exact ⟨i, hi9, Option.isNone_iff_eq_none.mp hpred, rfl⟩
    | none =>
      cases hedg : [1, 3, 5, 7].find? (fun i => (b.getD i none).isNone) with
      | some i =>
        have hmem := List.mem_of_find?_eq_some hedg
        have hpred := List.find?_some hedg
        have hi9 : i < 9 := by
          simp only [List.mem_cons, List.not_mem_nil, or_false] at hmem
          rcases hmem with h | h | h | h <;> omega
        exact ⟨i, hi9, Option.isNone_iff_eq_none.mp hpred, rfl⟩
      | none =>
        exfalso
        obtain ⟨i, hi, he⟩ := hemp
        have hcorf := List.find?_eq_none.mp hcor
        have hedgf := List.find?_eq_none.mp hedg
        have hin : (b.getD i none).isNone = true := by rw [he]; rfl
        interval_cases i
        · exact absurd hin (by simpa using hcorf 0 (by simp))
        · exact absurd hin (by simpa using hedgf 1 (by simp))
        · exact absurd hin (by simpa using hcorf 2 (by simp))
        · exact absurd hin (by simpa using hedgf 3 (by simp))
        · exact absurd hin (by simpa using hc)
        · exact absurd hin (by simpa using hedgf 5 (by simp))
        · exact absurd hin (by simpa using hcorf 6 (by simp))
        · exact absurd hin (by simpa using hedgf 7 (by simp))
        · exact absurd hin (by simpa using hcorf 8 (by simp))

theorem sliceLast_length_le {α : Type _} (n : Nat) (l : List α) :
    (sliceLast n l).length ≤ n := by
  simp only [sliceLast, List.length_drop]
  omega

theorem logEvent_length_le {α : Type _} (buf : List α) (e : α) :
    (logEvent buf e).length ≤ 100 := by
  simp only [logEvent]
  split_ifs with h
  · simpa [MAX_LOGS] using sliceLast_length_le MAX_LOGS (buf ++ [e])
  · simp only [MAX_LOGS, gt_iff_lt, not_lt] at h
    exact h

theorem foldl_logEvent_le {α : Type _} (t : List α) :
    ∀ buf : List α, buf.length ≤ 100 → (t.foldl logEvent buf).length ≤ 100 := by
  induction t with
  | nil => intro buf h; exact h
  | cons e rest ih =>
    intro buf _
    exact ih (logEvent buf e) (logEvent_length_le buf e)

/-- C10: the audit log holds at most 100 entries at all times: whatever
list is restored at initialization and however many events are then
logged, `getAuditLog` returns at most 100 entries. -/
theorem C10_audit_bound (α : Type) (arr : List α) (events : List α) :
    (getAuditLog (events.foldl logEvent (initBuffer arr))).length ≤ 100 := by
  unfold getAuditLog
  exact foldl_logEvent_le events _
    (by simpa [MAX_LOGS, initBuffer] using sliceLast_length_le MAX_LOGS arr)

/-- C8: for every board whose list of cells does not have length 9,
`chooseBestMove` returns the sentinel -1, for every AI side, strategy and
depth.  (The JS also rejects non-array inputs; only the length half is
representable in this embedding, and the Lean function is total, matching
"never raises".) -/
theorem C8_bad_shape (board : Board) (ai : Player) (opts : Opts)
    (h : board.length ≠ 9) : chooseBestMove board ai opts = -1 := by
  unfold chooseBestMove
  rw [if_pos h]

theorem C8_witness :
    chooseBestMove [none, none, none] Player.X ⟨"minimax", none, computeWinner⟩ = -1 :=
  C8_bad_shape [none, none, none] Player.X ⟨"minimax", none, computeWinner⟩ (by decide)

/-- C7: for every full 9-cell board (no empty cell), `chooseBestMove`
returns -1 under every strategy string (hence both 'quick' and 'minimax'),
every AI side, every depth and every injected winner classifier; it is an
ordinary return value of the total function. -/
theorem C7_full_board (b : Board) (ai : Player) (strat : String)
    (dep : Option Int) (cw : Board → Option Player) (hl : b.length = 9)
    (hall : b.all Option.isSome = true) :
    chooseBestMove b ai ⟨strat, dep, cw⟩ = -1 := by
  by_cases hq : strat = "quick"
  · rw [chooseBestMove_eq_quick hl hq]
    unfold quickHeuristic
    have h4 : (b.getD 4 none).isNone = false := by
      have := full_getD_isSome hall (by omega : (4 : Nat) < b.length)
      cases hx : b.getD 4 none with
      | none => rw [hx] at this; simp at this
      | some p => rfl
    rw [if_neg (by rw [h4]; exact Bool.false_ne_true)]
    have hcor : [0, 2, 6, 8].find? (fun i => (b.getD i none).isNone) = none := by
      rw [List.find?_eq_none]
      intro x hx
      have hx9 : x < 9 := by
        simp only [List.mem_cons, List.not_mem_nil, or_false] at hx
        rcases hx with h | h | h | h <;> omega
      have := full_getD_isSome hall (by omega : x < b.length)
      cases hy : b.getD x none with
      | none => rw [hy] at this; simp at this
      | some p => simp [hy]
    have hedg : [1, 3, 5, 7].find? (fun i => (b.getD i none).isNone) = none := by
      rw [List.find?_eq_none]
      intro x hx
      have hx9 : x < 9 := by
        simp only [List.mem_cons, List.not_mem_nil, or_false] at hx
        rcases hx with h | h | h | h <;> omega
      have := full_getD_isSome hall (by omega : x < b.length)
      cases hy : b.getD x none with
      | none => rw [hy] at this; simp at this
      | some p => simp [hy]
    rw [hcor, hedg]
  · rw [chooseBestMove_eq_driver hl hq]
    unfold minimaxDriver
    exact minimax_full_move hall

theorem C7_witness :
    chooseBestMove
      [some Player.X, some Player.O, some Player.X,
       some Player.O, some Player.X, some Player.O,
       some Player.O, some Player.X, some Player.O] Player.O
      ⟨"minimax", some 3, computeWinner⟩ = -1 :=
  C7_full_board _ Player.O "minimax" (some 3) computeWinner (by decide) (by decide)

/-- C6: the minimax search never leaves a trace on the board it is given:
whatever marks the recursion places on the scratch board are retracted
before each call returns, so the board component of the result equals the
input board for every classifier, AI side, depth, player to move and
board.  Together with the top-level copy in `minimaxDriver`, the caller's
board representation is never mutated. -/
theorem C6_no_mutation (cw : Board → Option Player) (aiPlayer : Player)
    (d : Nat) (p : Player) (b : Board) : (minimax cw aiPlayer d p b).2 = b :=
  minimax_board cw aiPlayer d p b

/-- C9: `makeMove` rejects a move atomically — when the game is over, the
index is outside [0,8], or the cell is occupied, it returns false and the
whole state is unchanged — and otherwise returns true and places the
current player's mark at the index.  (The JS non-number index guard is not
representable; the index is modelled as an integer.) -/
theorem C9_makeMove (st : GameState) (i : Int) :
    ((st.winner ≠ none ∨ st.isDraw = true ∨ i < 0 ∨ 8 < i
        ∨ st.board.getD i.toNat none ≠ none) →
      makeMove st i = (false, st))
    ∧ ((st.winner = none ∧ st.isDraw = false ∧ 0 ≤ i ∧ i ≤ 8
        ∧ st.board.getD i.toNat none = none) →
      (makeMove st i).1 = true
      ∧ (makeMove st i).2.board = st.board.set i.toNat (some st.currentPlayer)) := by
  constructor
  · intro hrej
    unfold makeMove
    split_ifs with h1 h2 h3
    · rfl
    · rfl
    · rfl
    · exfalso
      rcases hrej with hw | hd | hlt | hgt | hocc
      · exact h1 (Or.inl (Option.ne_none_iff_isSome.mp hw))
      · exact h1 (Or.inr hd)
      · exact h2 (Or.inl hlt)
      · exact h2 (Or.inr hgt)
      · exact h3 (Option.ne_none_iff_isSome.mp hocc)
  · rintro ⟨hw, hd, h0, h8, hocc⟩
    unfold makeMove
    rw [if_neg ?hc1, if_neg ?hc2, if_neg ?hc3]
    case hc1 =>
      rintro (hs | hdr)
      · rw [hw] at hs; simp at hs
      · rw [hd] at hdr; exact Bool.false_ne_true hdr
    case hc2 => omega
    case hc3 =>
      rw [hocc]
      simp
    exact ⟨rfl, rfl⟩

theorem C9_witness :
    (makeMove ⟨emptyBoard, Player.X, none, false, ⟨0, 0, 0⟩⟩ 4).1 = true
    ∧ (makeMove ⟨emptyBoard, Player.X, none, false, ⟨0, 0, 0⟩⟩ 4).2.board
        = emptyBoard.set 4 (some Player.X) :=
  (C9_makeMove ⟨emptyBoard, Player.X, none, false, ⟨0, 0, 0⟩⟩ 4).2
    ⟨rfl, rfl, by decide, by decide, by decide⟩

/-- C4: the quick strategy follows the fixed priority rule on every
9-cell board: center first, then the first empty corner in order
[0,2,6,8], then the first empty edge in order [1,3,5,7], and -1 on a full
board. -/
theorem C4_quick_priority (b : Board) (ai : Player) (dep : Option Int)
    (cw : Board → Option Player) (hl : b.length = 9) :
    ((b.getD 4 none).isNone = true →
      chooseBestMove b ai ⟨"quick", dep, cw⟩ = 4)
    ∧ ((b.getD 4 none).isNone = false →
        ∀ i, [0, 2, 6, 8].find? (fun j => (b.getD j none).isNone) = some i →
        chooseBestMove b ai ⟨"quick", dep, cw⟩ = (i : Int))
    ∧ ((b.getD 4 none).isNone = false →
        [0, 2, 6, 8].find? (fun j => (b.getD j none).isNone) = none →
        ∀ i, [1, 3, 5, 7].find? (fun j => (b.getD j none).isNone) = some i →
        chooseBestMove b ai ⟨"quick", dep, cw⟩ = (i : Int))
    ∧ ((b.getD 4 none).isNone = false →
        [0, 2, 6, 8].find? (fun j => (b.getD j none).isNone) = none →
        [1, 3, 5, 7].find? (fun j => (b.getD j none).isNone) = none →
        chooseBestMove b ai ⟨"quick", dep, cw⟩ = -1) := by
  rw [chooseBestMove_eq_quick hl rfl]
  unfold quickHeuristic
  refine ⟨fun h4 => by rw [if_pos h4], fun h4 i hf => ?_, fun h4 hc i hf => ?_,
    fun h4 hc he => ?_⟩
  · rw [if_neg (by rw [h4]; exact Bool.false_ne_true), hf]
  · rw [if_neg (by rw [h4]; exact Bool.false_ne_true), hc, hf]
  · rw [if_neg (by rw [h4]; exact Bool.false_ne_true), hc, he]

theorem C4_witness :
    chooseBestMove emptyBoard Player.O ⟨"quick", none, computeWinner⟩ = 4 :=
  (C4_quick_priority emptyBoard Player.O none computeWinner (by decide)).1 (by decide)

/-- C2 as stated is false: on a 9-cell board that already contains a
completed winning line but still has empty cells, the minimax strategy
hits the terminal test at the root and returns -1.  Concretely, the board
X X X / O O _ / _ _ _ has four empty cells, yet `chooseBestMove` with
strategy 'minimax' returns -1. -/
theorem C2_counterexample :
    (([some Player.X, some Player.X, some Player.X,
       some Player.O, some Player.O, none, none, none, none] : Board).getD 5 none = none)
    ∧ chooseBestMove
        [some Player.X, some Player.X, some Player.X,
         some Player.O, some Player.O, none, none, none, none] Player.O
        ⟨"minimax", some 9, computeWinner⟩ = -1 := by
  constructor
  · decide
  · decide

/-- C2 amended: on every 9-cell board with at least one empty cell and no
already-completed winning line (the injected classifier reports no
winner), `chooseBestMove` returns an index in [0,8] whose cell is empty,
for every AI side, every strategy string and every depth. -/
theorem C2_amended (b : Board) (ai : Player) (strat : String)
    (dep : Option Int) (cw : Board → Option Player) (hl : b.length = 9)
    (hcw : cw b = none) (hemp : ∃ i, i < 9 ∧ b.getD i none = none) :
    ∃ m : Nat, m < 9 ∧ b.getD m none = none
      ∧ chooseBestMove b ai ⟨strat, dep, cw⟩ = (m : Int) := by
  by_cases hq : strat = "quick"
  · rw [chooseBestMove_eq_quick hl hq]
    exact quickHeuristic_spec hl hemp
  · rw [chooseBestMove_eq_driver hl hq]
    obtain ⟨i, hi, he⟩ := hemp
    have hfull : b.all Option.isSome = false :=
      not_full_of_empty (by omega) he
    obtain ⟨k, hk⟩ : ∃ k, (clampDepth (dep.getD 9)).toNat = k + 1 := by
      have := clampDepth_toNat_pos (dep.getD 9)
      exact ⟨(clampDepth (dep.getD 9)).toNat - 1, by omega⟩
    have hts : terminalScore cw ai b (k + 1) = none :=
      terminalScore_eq_none.mpr ⟨hcw, hfull⟩
    obtain ⟨m, hmem, hmv, _⟩ := minimax_succ_spec cw ai k ai b hl hts
    obtain ⟨hm9, hme⟩ := mem_availableMoves.mp hmem
    refine ⟨m, hm9, hme, ?_⟩
    unfold minimaxDriver
    rw [hk]
    exact hmv

theorem C2_witness :
    ∃ m : Nat, m < 9 ∧ (emptyBoard : Board).getD m none = none
      ∧ chooseBestMove emptyBoard Player.X ⟨"minimax", some 9, computeWinner⟩
          = (m : Int) :=
  C2_amended emptyBoard Player.X "minimax" (some 9) computeWinner
    (by decide) (by decide) ⟨0, by decide⟩

/-- C3 as stated is false for the caller depth 0: `maxDepth || 9` treats 0
as unset, so depth 0 is replaced by 9 before clamping, not raised to 1.
On the board _ _ X / X X O / O X O with AI side O, the depth-0 call (which
searches to depth 9) picks index 1, while the depth-1 call picks index 0. -/
theorem C3_counterexample :
    chooseBestMove
      [none, none, some Player.X, some Player.X, some Player.X,
       some Player.O, some Player.O, some Player.X, some Player.O] Player.O
      ⟨"minimax", some 0, computeWinner⟩
    ≠ chooseBestMove
      [none, none, some Player.X, some Player.X, some Player.X,
       some Player.O, some Player.O, some Player.X, some Player.O] Player.O
      ⟨"minimax", some 1, computeWinner⟩ := by
  decide

/-- C3 amended: the effective minimax depth is clamped to [1,9], where
negative caller depths are raised to 1, while depth 0 (falsy in JS) and an
unset depth fall back to 9, and depths above 9 are lowered to 9.  In
particular a negative depth gives the same result as depth 1, and depth 0,
an unset depth, or a depth above 9 give the same result as depth 9, on
every board and for every AI side and classifier. -/
theorem C3_amended (b : Board) (ai : Player) (cw : Board → Option Player)
    (dep : Int) :
    (dep < 0 →
      chooseBestMove b ai ⟨"minimax", some dep, cw⟩
        = chooseBestMove b ai ⟨"minimax", some 1, cw⟩)
    ∧ ((dep = 0 ∨ 9 < dep) →
      chooseBestMove b ai ⟨"minimax", some dep, cw⟩
        = chooseBestMove b ai ⟨"minimax", some 9, cw⟩)
    ∧ chooseBestMove b ai ⟨"minimax", none, cw⟩
        = chooseBestMove b ai ⟨"minimax", some 9, cw⟩ := by
  have hq : ¬ ("minimax" = "quick") := by decide
  by_cases hl : b.length = 9
  · refine ⟨fun hneg => ?_, fun hbig => ?_, ?_⟩
    · rw [chooseBestMove_eq_driver hl hq, chooseBestMove_eq_driver hl hq]
      unfold minimaxDriver
      have h1 : clampDepth ((some dep).getD 9) = 1 := clampDepth_of_neg hneg
      have h2 : clampDepth ((some (1 : Int)).getD 9) = 1 := by decide
      rw [h1, h2]
    · rw [chooseBestMove_eq_driver hl hq, chooseBestMove_eq_driver hl hq]
      unfold minimaxDriver
      have h2 : clampDepth ((some (9 : Int)).getD 9) = 9 := by decide
      rcases hbig with h0 | hgt
      · have h1 : clampDepth ((some dep).getD 9) = 9 := by
          rw [h0]; decide
        rw [h1, h2]
      · have h1 : clampDepth ((some dep).getD 9) = 9 := clampDepth_of_big hgt
        rw [h1, h2]
    · rw [chooseBestMove_eq_driver hl hq, chooseBestMove_eq_driver hl hq]
      unfold minimaxDriver
      have h1 : clampDepth ((none : Option Int).getD 9) = 9 := by decide
      have h2 : clampDepth ((some (9 : Int)).getD 9) = 9 := by decide
      rw [h1, h2]
  · have hall : ∀ o : Opts, chooseBestMove b ai o = -1 := by
      intro o
      unfold chooseBestMove
      rw [if_pos hl]
    refine ⟨fun _ => ?_, fun _ => ?_, ?_⟩ <;> rw [hall, hall]

theorem C3_witness :
    chooseBestMove emptyBoard Player.X ⟨"minimax", some (-3), computeWinner⟩
      = chooseBestMove emptyBoard Player.X ⟨"minimax", some 1, computeWinner⟩ :=
  (C3_amended emptyBoard Player.X computeWinner (-3)).1 (by decide)

theorem bool_eq_of_iff {a b : Bool} (h : a = true ↔ b = true) : a = b := by
  cases a <;> cases b <;> simp_all

theorem Player.other_ne (p : Player) : p.other ≠ p := by
  cases p <;> decide

theorem Player.other_other (p : Player) : p.other.other = p := by
  cases p <;> rfl

set_option maxRecDepth 10000 in
set_option maxHeartbeats 4000000 in
theorem checkCert_X : checkCert Player.X 9 emptyBoard Player.X certX = true := by decide

set_option maxRecDepth 10000 in
set_option maxHeartbeats 4000000 in
theorem checkCert_O : checkCert Player.O 9 emptyBoard Player.X certO = true := by decide

theorem checkCert_noLose (aiPlayer : Player) :
    ∀ (f : Nat) (b : Board) (p : Player) (c : Cert),
      checkCert aiPlayer f b p c = true → noLose aiPlayer f b p = true := by
  intro f
  induction f with
  | zero =>
    intro b p c h
    rw [checkCert] at h
    rw [noLose]
    cases hw : computeWinner b with
    | some w => rw [hw] at h; exact h
    | none =>
      rw [hw] at h
      cases hfull : b.all Option.isSome with
      | true => simp [hfull]
      | false => rw [hfull] at h; simp at h
  | succ f ih =>
    intro b p c h
    rw [checkCert] at h
    rw [noLose]
    cases hw : computeWinner b with
    | some w => rw [hw] at h; exact h
    | none =>
      rw [hw] at h
      cases hfull : b.all Option.isSome with
      | true => simp [hfull]
      | false =>
        rw [hfull] at h
        simp only [Bool.false_eq_true, if_false] at h ⊢
        cases c with
        | stop => rw [checkCertStep] at h; exact absurd h Bool.false_ne_true
        | ai m next =>
          rw [checkCertStep] at h
          rw [Bool.and_eq_true, Bool.and_eq_true, Bool.and_eq_true] at h
          obtain ⟨⟨⟨hpai, h9⟩, hempc⟩, hck⟩ := h
          rw [decide_eq_true_eq] at hpai
          rw [decide_eq_true_eq] at h9
          rw [if_pos hpai]
          refine List.any_eq_true.mpr ⟨m, ?_, ih _ _ _ hck⟩
          exact mem_availableMoves.mpr ⟨h9, Option.isNone_iff_eq_none.mp hempc⟩
        | opp cs =>
          rw [checkCertStep] at h
          rw [Bool.and_eq_true] at h
          obtain ⟨hpne, hall⟩ := h
          rw [Bool.not_eq_true', decide_eq_false_iff_not] at hpne
          rw [if_neg hpne]
          rw [List.all_eq_true] at hall ⊢
          intro m hm
          have hm2 := hall m hm
          cases hlk : cs.lookup m with
          | none => rw [hlk] at hm2; simp at hm2
          | some next => rw [hlk] at hm2; exact ih _ _ _ hm2

theorem availableMoves_set {b : Board} {m : Nat} (hl : b.length = 9)
    (hm : m ∈ availableMoves b) (q : Player) :
    availableMoves (b.set m (some q))
      = (availableMoves b).filter (fun i => i != m) := by
  obtain ⟨hm9, hme⟩ := mem_availableMoves.mp hm
  unfold availableMoves
  rw [List.filter_filter]
  refine List.filter_congr ?_
  intro i hi
  by_cases him : i = m
  · subst him
    rw [getD_set_self b i (some q) (by omega)]
    simp
  · rw [getD_set_ne b (some q) him]
    simp [him]

theorem availableMoves_set_length {b : Board} {m : Nat} (hl : b.length = 9)
    (hm : m ∈ availableMoves b) (q : Player) :
    (availableMoves (b.set m (some q))).length
      = (availableMoves b).length - 1 := by
  have hnd : (availableMoves b).Nodup := (List.nodup_range 9).filter _
  rw [availableMoves_set hl hm q, ← hnd.erase_eq_filter m,
    List.length_erase_of_mem hm]

theorem childScore_minimax (cw : Board → Option Player) (aiPlayer : Player)
    (d : Nat) (p : Player) (b : Board) (m : Nat) :
    childScore (minimax cw aiPlayer d) p b m
      = (minimax cw aiPlayer d p.other (b.set m (some p))).1.score := rfl

theorem noLose_winner {aiPlayer : Player} {b : Board} {p w : Player}
    (hw : computeWinner b = some w) (f : Nat) :
    noLose aiPlayer f b p = decide (w = aiPlayer) := by
  cases f with
  | zero => rw [noLose, hw]
  | succ k => rw [noLose, hw]

theorem noLose_draw {aiPlayer : Player} {b : Board} {p : Player}
    (hw : computeWinner b = none) (hfull : b.all Option.isSome = true)
    (f : Nat) : noLose aiPlayer f b p = true := by
  cases f with
  | zero => rw [noLose, hw]; simp [hfull]
  | succ k => rw [noLose, hw]; simp [hfull]

theorem noLose_succ {aiPlayer : Player} {b : Board} {p : Player}
    (hw : computeWinner b = none) (hfull : b.all Option.isSome = false)
    (f : Nat) :
    noLose aiPlayer (f + 1) b p
      = if p = aiPlayer then
          (availableMoves b).any (fun m => noLose aiPlayer f (b.set m (some p)) p.other)
        else
          (availableMoves b).all (fun m => noLose aiPlayer f (b.set m (some p)) p.other) := by
  rw [noLose, hw]
  simp [hfull]

theorem terminalScore_winner {cw : Board → Option Player} {aiPlayer : Player}
    {b : Board} {w : Player} (hw : cw b = some w) (dl : Nat) :
    terminalScore cw aiPlayer b dl
      = some (if w = aiPlayer then 10 + (dl : Int) else -10 - (dl : Int)) := by
  unfold terminalScore
  rw [hw]
  by_cases hwa : w = aiPlayer <;> simp [hwa]

theorem sign_noLose (aiPlayer : Player) :
    ∀ (d : Nat) (b : Board) (p : Player), b.length = 9 →
      (availableMoves b).length ≤ d →
      Score.isNonNeg (minimax computeWinner aiPlayer d p b).1.score
        = noLose aiPlayer (availableMoves b).length b p := by
  intro d
  induction d with
  | zero =>
    intro b p hl he
    have hfull : b.all Option.isSome = true := by
      cases hfb : b.all Option.isSome with
      | true => rfl
      | false =>
        exact absurd (List.length_eq_zero.mp (Nat.le_zero.mp he))
          (availableMoves_ne_nil hl hfb)
    cases hw : computeWinner b with
    | some w =>
      rw [minimax_terminal_eq (terminalScore_winner hw 0), noLose_winner hw]
      by_cases hwa : w = aiPlayer
      · rw [if_pos hwa]
        simp only [Score.isNonNeg]
        rw [decide_eq_true (by omega : (0 : Int) ≤ 10 + ((0 : Nat) : Int)),
          decide_eq_true hwa]
      · rw [if_neg hwa]
        simp only [Score.isNonNeg]
        rw [decide_eq_false (by omega : ¬ (0 : Int) ≤ -10 - ((0 : Nat) : Int)),
          decide_eq_false hwa]
    | none =>
      have hts : terminalScore computeWinner aiPlayer b 0 = some 0 := by
        unfold terminalScore
        rw [hw]
        simp [hfull]
      rw [minimax_terminal_eq hts, noLose_draw hw hfull]
      rfl
  | succ d ih =>
    intro b p hl he
    cases hw : computeWinner b with
    | some w =>
      rw [minimax_terminal_eq (terminalScore_winner hw (d + 1)), noLose_winner hw]
      by_cases hwa : w = aiPlayer
      · rw [if_pos hwa]
        simp only [Score.isNonNeg]
        rw [decide_eq_true (by omega : (0 : Int) ≤ 10 + ((d + 1 : Nat) : Int)),
          decide_eq_true hwa]
      · rw [if_neg hwa]
        simp only [Score.isNonNeg]
        rw [decide_eq_false (by omega : ¬ (0 : Int) ≤ -10 - ((d + 1 : Nat) : Int)),
          decide_eq_false hwa]
    | none =>
      cases hfull : b.all Option.isSome with
      | true =>
        have hts : terminalScore computeWinner aiPlayer b (d + 1) = some 0 := by
          unfold terminalScore
          rw [hw]
          simp [hfull]
        rw [minimax_terminal_eq hts, noLose_draw hw hfull]
        rfl
      | false =>
        have hts : terminalScore computeWinner aiPlayer b (d + 1) = none :=
          terminalScore_eq_none.mpr ⟨hw, hfull⟩
        have hne : availableMoves b ≠ [] := availableMoves_ne_nil hl hfull
        obtain ⟨e2, he2⟩ : ∃ e2, (availableMoves b).length = e2 + 1 := by
          have hpos : 0 < (availableMoves b).length :=
            List.length_pos.mpr hne
          exact ⟨(availableMoves b).length - 1, by omega⟩
        have hchild : ∀ m ∈ availableMoves b, ∀ q : Player,
            Score.isNonNeg (childScore (minimax computeWinner aiPlayer d) q b m)
              = noLose aiPlayer e2 (b.set m (some q)) q.other := by
          intro m hm q
          rw [childScore_minimax]
          have hlen : (availableMoves (b.set m (some q))).length = e2 := by
            rw [availableMoves_set_length hl hm q, he2]
            omega
          have hcl : (b.set m (some q)).length = 9 := by
            rw [List.length_set]; exact hl
          have := ih (b.set m (some q)) q.other hcl (by omega)
          rw [hlen] at this
          exact this
        rw [he2, noLose_succ hw hfull e2]
        obtain ⟨m0, hmem0, hmv0, hcs0⟩ :=
          minimax_succ_spec computeWinner aiPlayer d p b hl hts
        by_cases hp : p = aiPlayer
        · subst hp
          rw [if_pos rfl]
          refine bool_eq_of_iff ⟨fun hnn => ?_, fun hany => ?_⟩
          · refine List.any_eq_true.mpr ⟨m0, hmem0, ?_⟩
            rw [← hchild m0 hmem0 p]
            rw [hcs0]
            exact hnn
          · obtain ⟨m, hm, hnl⟩ := List.any_eq_true.mp hany
            have hnn : Score.isNonNeg
                (childScore (minimax computeWinner p d) p b m) = true := by
              rw [hchild m hm p]
              exact hnl
            have hub := minimax_succ_ub computeWinner p d b hts m hm
            exact Score.isNonNeg_of_ge hub hnn
        · rw [if_neg hp]
          refine bool_eq_of_iff ⟨fun hnn => ?_, fun hall => ?_⟩
          · rw [List.all_eq_true]
            intro m hm
            rw [← hchild m hm p]
            have hlb := minimax_succ_lb computeWinner aiPlayer d p b hp hts m hm
            exact Score.isNonNeg_of_ge hlb hnn
          · have hnl := List.all_eq_true.mp hall m0 hmem0
            rw [← hchild m0 hmem0 p] at hnl
            rw [hcs0] at hnl
            exact hnl

theorem availableMoves_length_le_nine (b : Board) :
    (availableMoves b).length ≤ 9 := by
  have h := List.length_filter_le (fun i => (b.getD i none).isNone) (List.range 9)
  simpa [availableMoves, List.length_range] using h

theorem chooseBestMove_aiOpts {b : Board} (ai : Player) (hl : b.length = 9) :
    chooseBestMove b ai aiOpts = (minimax computeWinner ai 9 ai b).1.move := by
  rw [chooseBestMove_eq_driver hl (by decide)]
  unfold minimaxDriver
  have h9 : (clampDepth (aiOpts.depth.getD 9)).toNat = 9 := by decide
  rw [h9]
  rfl

theorem reach_inv (ai : Player) :
    ∀ (b : Board) (p : Player), Reach ai b p →
      b.length = 9 ∧ noLose ai (availableMoves b).length b p = true := by
  intro b p h
  induction h with
  | init =>
    refine ⟨by decide, ?_⟩
    have h9 : (availableMoves emptyBoard).length = 9 := by decide
    rw [h9]
    cases ai with
    | X => exact checkCert_noLose Player.X 9 emptyBoard Player.X certX checkCert_X
    | O => exact checkCert_noLose Player.O 9 emptyBoard Player.X certO checkCert_O
  | @aiMove b hreach hw hfull ih =>
    obtain ⟨hl, hnl⟩ := ih
    have hts : terminalScore computeWinner ai b (8 + 1) = none :=
      terminalScore_eq_none.mpr ⟨hw, hfull⟩
    obtain ⟨m, hmem, hmv, hcs⟩ := minimax_succ_spec computeWinner ai 8 ai b hl hts
    have h98 : (9 : Nat) = 8 + 1 := rfl
    have hcbm : chooseBestMove b ai aiOpts = (m : Int) := by
      rw [chooseBestMove_aiOpts ai hl, h98, hmv]
    have hle9 : (availableMoves b).length ≤ 9 := availableMoves_length_le_nine b
    have hsign := sign_noLose ai 9 b ai hl hle9
    rw [hnl] at hsign
    have hcsn : Score.isNonNeg (childScore (minimax computeWinner ai 8) ai b m)
        = true := by
      rw [hcs, ← h98]
      exact hsign
    have hlset : (b.set m (some ai)).length = 9 := by
      rw [List.length_set]; exact hl
    have hlenset : (availableMoves (b.set m (some ai))).length
        = (availableMoves b).length - 1 := availableMoves_set_length hl hmem ai
    have hsignc := sign_noLose ai 8 (b.set m (some ai)) ai.other hlset
      (by rw [hlenset]; omega)
    rw [childScore_minimax] at hcsn
    rw [hcsn] at hsignc
    have hgoal : noLose ai (availableMoves (b.set m (some ai))).length
        (b.set m (some ai)) ai.other = true := hsignc.symm
    have hmn : (chooseBestMove b ai aiOpts).toNat = m := by
      rw [hcbm]
      exact Int.toNat_natCast m
    rw [hmn]
    exact ⟨hlset, hgoal⟩
  | @oppMove b m hreach hw hm9 hme ih =>
    obtain ⟨hl, hnl⟩ := ih
    have hmem : m ∈ availableMoves b := mem_availableMoves.mpr ⟨hm9, hme⟩
    have hfull : b.all Option.isSome = false := not_full_of_empty (by omega) hme
    obtain ⟨e2, he2⟩ : ∃ e2, (availableMoves b).length = e2 + 1 := by
      have hpos : 0 < (availableMoves b).length :=
        List.length_pos.mpr (List.ne_nil_of_mem hmem)
      exact ⟨(availableMoves b).length - 1, by omega⟩
    rw [he2, noLose_succ hw hfull e2, if_neg (Player.other_ne ai)] at hnl
    have hchild := List.all_eq_true.mp hnl m hmem
    rw [Player.other_other] at hchild
    have hlset : (b.set m (some ai.other)).length = 9 := by
      rw [List.length_set]; exact hl
    have hlenset : (availableMoves (b.set m (some ai.other))).length = e2 := by
      rw [availableMoves_set_length hl hmem ai.other, he2]
      omega
    rw [← hlenset] at hchild
    exact ⟨hlset, hchild⟩

/-- C1: in every game that starts from the empty board in which the side
`ai` always plays `chooseBestMove` with strategy 'minimax' and depth 9
(and the injected `computeWinner`), and the opponent plays arbitrary legal
moves, no reachable position — in particular no final position — is a win
for the opponent. -/
theorem C1_never_loses (ai : Player) (b : Board) (p : Player)
    (h : Reach ai b p) : computeWinner b ≠ some ai.other := by
  intro hcon
  obtain ⟨_, hnl⟩ := reach_inv ai b p h
  rw [noLose_winner hcon _] at hnl
  rw [decide_eq_true_eq] at hnl
  exact Player.other_ne ai hnl

theorem C1_witness : computeWinner emptyBoard ≠ some Player.O :=
  C1_never_loses Player.X emptyBoard Player.X Reach.init

/-- C5: at every non-terminal node of the minimax recursion the candidate
moves are enumerated in ascending index order, the backed-up score is the
strict-update fold (maximum of the children's scores when the AI side is
to move, minimum otherwise, seeded with the corresponding infinity), and
the returned move is the first move in enumeration order whose child
score equals that backed-up score — so on a score tie the lowest index is
kept, and the search is a pure function of its arguments. -/
theorem C5_tie_break (cw : Board → Option Player) (ai : Player) (d : Nat)
    (b : Board) (hl : b.length = 9)
    (hts : terminalScore cw ai b (d + 1) = none) :
    List.Pairwise (· < ·) (availableMoves b)
    ∧ ((minimax cw ai (d + 1) ai b).1.score
        = (availableMoves b).foldl
            (fun a m => Score.maxB a (childScore (minimax cw ai d) ai b m))
            Score.negInf
      ∧ ∃ m : Nat,
          (availableMoves b).find?
            (fun m2 => decide (childScore (minimax cw ai d) ai b m2
              = (minimax cw ai (d + 1) ai b).1.score)) = some m
          ∧ (minimax cw ai (d + 1) ai b).1.move = (m : Int))
    ∧ (∀ p : Player, ¬ p = ai →
        (minimax cw ai (d + 1) p b).1.score
          = (availableMoves b).foldl
              (fun a m => Score.minB a (childScore (minimax cw ai d) p b m))
              Score.posInf
        ∧ ∃ m : Nat,
            (availableMoves b).find?
              (fun m2 => decide (childScore (minimax cw ai d) p b m2
                = (minimax cw ai (d + 1) p b).1.score)) = some m
            ∧ (minimax cw ai (d + 1) p b).1.move = (m : Int)) := by
  obtain ⟨hcw, hfull⟩ := terminalScore_eq_none.mp hts
  have hne : availableMoves b ≠ [] := availableMoves_ne_nil hl hfull
  obtain ⟨m0, hm0⟩ := List.exists_mem_of_ne_nil _ hne
  have hemp : ∀ x ∈ availableMoves b, b.getD x none = none :=
    fun x hx => (mem_availableMoves.mp hx).2
  have hchildnum : ∀ (m : Nat) (q : Player), ∃ k : Int,
      childScore (minimax cw ai d) q b m = Score.num k := by
    intro m q
    rw [childScore_minimax]
    exact minimax_num cw ai d q.other _ (by rw [List.length_set]; exact hl)
  refine ⟨(List.pairwise_lt_range 9).filter _, ?_, ?_⟩
  · obtain ⟨c1, c2, c3⟩ := minimaxStep_max_char _
      (fun q c => minimax_board cw ai d q c) ai (availableMoves b) b
      Score.negInf (-1) hemp _ rfl
    have hscore : (minimax cw ai (d + 1) ai b).1.score
        = (availableMoves b).foldl
            (fun a m => Score.maxB a (childScore (minimax cw ai d) ai b m))
            Score.negInf := by
      rw [minimax_succ_eq hts, if_pos rfl]
      exact c1
    have hSe : (availableMoves b).foldl
        (fun a m => Score.maxB a (childScore (minimax cw ai d) ai b m))
        Score.negInf ≠ Score.negInf := by
      intro hcon
      have hub : Score.blt
          ((availableMoves b).foldl
            (fun a m => Score.maxB a (childScore (minimax cw ai d) ai b m))
            Score.negInf)
          (childScore (minimax cw ai d) ai b m0) = false := by
        rw [← List.foldl_map]
        exact foldl_maxB_ge_mem _ _ _ (List.mem_map_of_mem _ hm0)
      obtain ⟨k, hk⟩ := hchildnum m0 ai
      rw [hcon, hk] at hub
      simp [Score.blt] at hub
    obtain ⟨m, hfind, hmv⟩ := c3 hSe
    refine ⟨hscore, m, ?_, ?_⟩
    · rw [hscore]
      exact hfind
    · rw [minimax_succ_eq hts, if_pos rfl]
      exact hmv
  · intro p hp
    obtain ⟨c1, c2, c3⟩ := minimaxStep_min_char _
      (fun q c => minimax_board cw ai d q c) ai p hp
      (availableMoves b) b Score.posInf (-1) hemp _ rfl
    have hscore : (minimax cw ai (d + 1) p b).1.score
        = (availableMoves b).foldl
            (fun a m => Score.minB a (childScore (minimax cw ai d) p b m))
            Score.posInf := by
      rw [minimax_succ_eq hts, if_neg hp]
      exact c1
    have hSe : (availableMoves b).foldl
        (fun a m => Score.minB a (childScore (minimax cw ai d) p b m))
        Score.posInf ≠ Score.posInf := by
      intro hcon
      have hlb : Score.blt (childScore (minimax cw ai d) p b m0)
          ((availableMoves b).foldl
            (fun a m => Score.minB a (childScore (minimax cw ai d) p b m))
            Score.posInf) = false := by
        rw [← List.foldl_map]
        exact foldl_minB_le_mem _ _ _ (List.mem_map_of_mem _ hm0)
      obtain ⟨k, hk⟩ := hchildnum m0 p
      rw [hcon, hk] at hlb
      simp [Score.blt] at hlb
    obtain ⟨m, hfind, hmv⟩ := c3 hSe
    refine ⟨hscore, m, ?_, ?_⟩
    · rw [hscore]
      exact hfind
    · rw [minimax_succ_eq hts, if_neg hp]
      exact hmv

theorem C5_witness :
    List.Pairwise (· < ·) (availableMoves
      [none, none, some Player.X, some Player.X, some Player.X,
       some Player.O, some Player.O, some Player.X, some Player.O]) :=
  (C5_tie_break computeWinner Player.O 0
    [none, none, some Player.X, some Player.X, some Player.X,
     some Player.O, some Player.O, some Player.X, some Player.O]
    (by decide) (by decide)).1

end TTT
